import Mathlib

/-!
Verification of the structured-generation validation and repair pipeline of the
trip-planner service (source: src/api/main.py).  The Python functions are
shallowly embedded as executable Lean definitions over a JSON-like value type:

* extract_json_object      (main.py lines 1034-1069)  - JSON Extractor
* normalize_itinerary      (main.py lines 235-310)    - Itinerary Normalizer
* compute_trip_insights    (main.py lines 484-632)    - Insight Scorer
* prepare_fashion_results  (main.py lines 939-1022)   - Recommendation Validator
* the Gemini attempt loop  (main.py lines 1104-1156)  - Retry Controller

Modelling conventions: Python dicts are association lists (first occurrence
wins, insertion appends, updates replace in place, matching CPython semantics
for string keys); JSON numbers are integers (the documents of interest carry
integer rupee amounts; Python floats are outside the embedding); raised
exceptions are Option/Except failures; collaborator calls (the language model,
the image search provider) are function parameters.  String helpers mirror the
CPython behaviour on ASCII input.
-/

inductive JVal where
  | jnull : JVal
  | jbool : Bool → JVal
  | jnum : Int → JVal
  | jstr : String → JVal
  | jarr : List JVal → JVal
  | jobj : List (String × JVal) → JVal

open JVal

/-- Python dict lookup (d.get(key)): first matching key. -/
def getVal : List (String × JVal) → String → Option JVal
  | [], _ => none
  | (k, v) :: rest, key => if k = key then some v else getVal rest key

/-- Python dict assignment (d[key] = v): replace the first occurrence in
place, append when the key is absent. -/
def setKey : List (String × JVal) → String → JVal → List (String × JVal)
  | [], key, v => [(key, v)]
  | (k, w) :: rest, key, v =>
      if k = key then (k, v) :: rest else (k, w) :: setKey rest key v

/-- Python truthiness of a JSON value. -/
def pyTruthy : JVal → Bool
  | jnull => false
  | jbool b => b
  | jnum n => n != 0
  | jstr s => s != ""
  | jarr [] => false
  | jarr (_ :: _) => true
  | jobj [] => false
  | jobj (_ :: _) => true

/-- The ASCII whitespace that Python's str.strip() removes. -/
def pyWS (c : Char) : Bool :=
  c == ' ' || c == '\t' || c == '\n' || c == '\r' || c == '\x0b' || c == '\x0c'

/-- Python str.strip() on a character list. -/
def pstripL (l : List Char) : List Char :=
  ((l.dropWhile pyWS).reverse.dropWhile pyWS).reverse

/-- Python str.strip() on a string. -/
def pstripS (s : String) : String := ⟨pstripL s.data⟩

/-- Does the list start with the given pattern? -/
def startsList : List Char → List Char → Bool
  | _, [] => true
  | [], _ :: _ => false
  | a :: as, b :: bs => a == b && startsList as bs

/-- The brace-matching scan of extract_json_object (main.py 1047-1065):
characters inside double-quoted strings are non-structural, with
backslash-escape awareness.  Returns the number of characters consumed up to
and including the brace that brings the nesting depth back to zero. -/
def scanObj : List Char → Int → Bool → Bool → Option Nat
  | [], _, _, _ => none
  | c :: rest, depth, inStr, esc =>
      let inStr2 := if c == '"' && !esc then !inStr else inStr
      if inStr2 && c == '\\' && !esc then
        (scanObj rest depth inStr2 true).map (· + 1)
      else if inStr2 then
        (scanObj rest depth inStr2 false).map (· + 1)
      else if c == '\x7b' then
        (scanObj rest (depth + 1) inStr2 false).map (· + 1)
      else if c == '\x7d' then
        if depth - 1 == 0 then some 1
        else (scanObj rest (depth - 1) inStr2 false).map (· + 1)
      else
        (scanObj rest depth inStr2 false).map (· + 1)

/-- Markdown code-fence stripping of extract_json_object (main.py 1041-1043):
when the stripped text starts with a fence, drop a leading three-backtick
fence with an optional case-insensitive json tag, then a trailing fence. -/
def stripFences (l : List Char) : List Char :=
  let fence := "```".data
  if startsList l fence then
    let r1 := l.drop 3
    let r2 := if startsList (r1.map Char.toLower) ("json".data) then r1.drop 4 else r1
    let r3 := pstripL r2
    let r4 := if startsList r3.reverse fence.reverse then r3.take (r3.length - 3) else r3
    pstripL r4
  else l

/-- extract_json_object (main.py 1034-1069): recover the first balanced JSON
object from raw model text.  The file logging and stdout printing of the
source are side effects outside the pure contract and are omitted. -/
def extract_json_object (raw : String) : Except String String :=
  if raw = "" then Except.error "Empty response from model"
  else
    let text := stripFences (pstripL raw.data)
    match List.findIdx? (fun c => c == '\x7b') text with
    | none => Except.error "No JSON object found in response"
    | some start =>
        match scanObj (text.drop start) 0 false false with
        | some n => Except.ok ⟨(text.drop start).take n⟩
        | none => Except.error "Incomplete JSON object in response"

abbrev Dict := List (String × JVal)

/-- Proleptic Gregorian leap year, as Python's datetime.date uses. -/
def isLeap (y : Int) : Bool :=
  (Int.emod y 4 == 0 && Int.emod y 100 != 0) || Int.emod y 400 == 0

def daysInMonth (y m : Int) : Int :=
  if m == 2 then (if isLeap y then 29 else 28)
  else if m == 4 || m == 6 || m == 9 || m == 11 then 30 else 31

/-- Day number of a civil date (days since 1970-01-01), the standard closed
form for the proleptic Gregorian calendar; models datetime.date arithmetic. -/
def daysFromCivil (y m d : Int) : Int :=
  let y2 := y - (if m ≤ 2 then 1 else 0)
  let era := Int.fdiv y2 400
  let yoe := y2 - era * 400
  let mp := Int.emod (m + 9) 12
  let doy := Int.fdiv (153 * mp + 2) 5 + d - 1
  let doe := yoe * 365 + Int.fdiv yoe 4 - Int.fdiv yoe 100 + doy
  era * 146097 + doe - 719468

/-- Civil date from a day number (inverse of daysFromCivil). -/
def civilFromDays (z0 : Int) : Int × Int × Int :=
  let z := z0 + 719468
  let era := Int.fdiv z 146097
  let doe := z - era * 146097
  let yoe := Int.fdiv (doe - Int.fdiv doe 1460 + Int.fdiv doe 36524 - Int.fdiv doe 146096) 365
  let y := yoe + era * 400
  let doy := doe - (365 * yoe + Int.fdiv yoe 4 - Int.fdiv yoe 100)
  let mp := Int.fdiv (5 * doy + 2) 153
  let d := doy - Int.fdiv (153 * mp + 2) 5 + 1
  let m := mp + (if mp < 10 then 3 else -9)
  (y + (if m ≤ 2 then 1 else 0), m, d)

def digitVal (c : Char) : Int := (c.toNat : Int) - 48

/-- Python date.fromisoformat on the strict YYYY-MM-DD form, with the
validity checks (month 1-12, day within the month, year at least 1) that make
the Python call raise on bad input (modelled as none). -/
def parseIsoDate (s : String) : Option (Int × Int × Int) :=
  match s.data with
  | [y1, y2, y3, y4, h1, m1, m2, h2, d1, d2] =>
      if (y1.isDigit && y2.isDigit && y3.isDigit && y4.isDigit &&
          m1.isDigit && m2.isDigit && d1.isDigit && d2.isDigit) &&
          h1 == '-' && h2 == '-' then
        let y := digitVal y1 * 1000 + digitVal y2 * 100 + digitVal y3 * 10 + digitVal y4
        let m := digitVal m1 * 10 + digitVal m2
        let d := digitVal d1 * 10 + digitVal d2
        if 1 ≤ y && 1 ≤ m && m ≤ 12 && 1 ≤ d && d ≤ daysInMonth y m then
          some (y, m, d)
        else none
      else none
  | _ => none

def padNum (w : Nat) (n : Int) : String :=
  let s := toString n.toNat
  String.mk (List.replicate (w - s.length) '0') ++ s

/-- date.isoformat() of the date with the given day number. -/
def isoOfOrd (ord : Int) : String :=
  let c := civilFromDays ord
  padNum 4 c.1 ++ "-" ++ padNum 2 c.2.1 ++ "-" ++ padNum 2 c.2.2

/-- _days_between_inclusive (main.py 634-638): (b - a).days + 1, at least 1;
none models the ValueError raised on an unparsable date. -/
def days_between_inclusive (a b : String) : Option Int := do
  let pa ← parseIsoDate a
  let pb ← parseIsoDate b
  some (max 1 (daysFromCivil pb.1 pb.2.1 pb.2.2 - daysFromCivil pa.1 pa.2.1 pa.2.2 + 1))

/-- The request preferences (TripPreferences, main.py 390-405). -/
structure TripPreferences where
  origin : String := ""
  destination : String
  startDate : String
  endDate : String
  budget : Int := 50000
  themes : List String := []
  travellers : Int := 2
  language : String := "English"
  enableLiveData : Bool := true

/-- The pervasive blank test of the Normalizer:
not isinstance(v, str) or not v.strip(). -/
def strBlank : Option JVal → Bool
  | some (jstr s) => (pstripL s.data).isEmpty
  | _ => true

/-- isinstance(v, (int, float)) - Python bools are ints. -/
def isNumLike : Option JVal → Bool
  | some (jnum _) => true
  | some (jbool _) => true
  | _ => false

/-- Python str.isdigit() restricted to ASCII. -/
def isDigitL (l : List Char) : Bool := !l.isEmpty && l.all Char.isDigit

def natOfDigits (l : List Char) : Nat :=
  l.foldl (fun acc c => acc * 10 + (c.toNat - 48)) 0

/-- The synthesized default time slot (main.py 279-281):
09:00 + 2h * index, clamped to the 06:00-22:00 window, formatted HH:00. -/
def slotTime (j : Nat) : String :=
  let h := max 6 (min (9 + 2 * j) 22)
  padNum 2 (h : Int) ++ ":00"

/-- A positionally indexed map with a definitional index argument. -/
def mapWithIdx (f : Nat → α → β) : Nat → List α → List β
  | _, [] => []
  | n, a :: as => f n a :: mapWithIdx f (n + 1) as

def daySummary (prefs : TripPreferences) : String :=
  let motifs0 := String.intercalate ", " prefs.themes
  let motifs := if motifs0 = "" then "local highlights" else motifs0
  "Tailored highlights across " ++ prefs.destination ++ " focusing on " ++ motifs ++ "."

/-- Title default (main.py 270-271). -/
def actTitle (j : Nat) (a : Dict) : Dict :=
  if strBlank (getVal a "title") then
    setKey a "title" (jstr ("Experience " ++ toString (j + 1))) else a

/-- Description default (main.py 272-273). -/
def actDescription (a : Dict) : Dict :=
  if strBlank (getVal a "description") then
    setKey a "description" (jstr "Curated moment designed for this trip.") else a

/-- Location default (main.py 274-275). -/
def actLocation (prefs : TripPreferences) (a : Dict) : Dict :=
  if strBlank (getVal a "location") then
    setKey a "location" (jstr prefs.destination) else a

/-- Time synthesis/trim (main.py 277-283). -/
def actTime (j : Nat) (a : Dict) : Dict :=
  match getVal a "time" with
  | some (jstr s) =>
      if (pstripL s.data).isEmpty then setKey a "time" (jstr (slotTime j))
      else setKey a "time" (jstr (pstripS s))
  | _ => setKey a "time" (jstr (slotTime j))

/-- Cost coercion (main.py 285-295). -/
def actCost (a : Dict) : Dict :=
  match getVal a "cost" with
  | some (jnum n) => setKey a "cost" (jnum n)
  | some (jbool b) => setKey a "cost" (jnum (if b then 1 else 0))
  | some (jstr s) =>
      let c := pstripS s
      if isDigitL c.data then setKey a "cost" (jnum (natOfDigits c.data : Int))
      else setKey a "cost" (jstr c)
  | _ => setKey a "cost" (jstr "Included")

/-- Source default/trim (main.py 297-301). -/
def actSource (a : Dict) : Dict :=
  match getVal a "source" with
  | some (jstr s) =>
      if (pstripL s.data).isEmpty then setKey a "source" (jstr "ai")
      else setKey a "source" (jstr (pstripS s))
  | _ => setKey a "source" (jstr "ai")

/-- Images default (main.py 303-304). -/
def actImages (a : Dict) : Dict :=
  match getVal a "images" with
  | some (jarr _) => a
  | _ => setKey a "images" (jarr [])

/-- The per-activity rules of _normalize_itinerary (main.py 265-304), for the
activity at (0-based) index j, applied in source order. -/
def normActivity (prefs : TripPreferences) (j : Nat) (a0 : Dict) : Dict :=
  actImages (actSource (actCost (actTime j (actLocation prefs
    (actDescription (actTitle j a0))))))

/-- A non-dict activity entry is replaced by an empty dict before the field
rules run (main.py 266-268). -/
def normActEntry (prefs : TripPreferences) (j : Nat) : JVal → JVal
  | jobj m => jobj (normActivity prefs j m)
  | _ => jobj (normActivity prefs j [])

/-- dateLabel default (main.py 250-251). -/
def dayLabelStep (i : Nat) (d : Dict) : Dict :=
  if strBlank (getVal d "dateLabel") then
    setKey d "dateLabel" (jstr ("Day " ++ toString (i + 1))) else d

/-- date backfill from the parsed start date (main.py 252-255). -/
def dayDateStep (startOrd : Option Int) (i : Nat) (d : Dict) : Dict :=
  match startOrd with
  | some ord =>
      if strBlank (getVal d "date") then
        setKey d "date" (jstr (isoOfOrd (ord + (i : Int)))) else d
  | none => d

/-- summary default (main.py 256-258). -/
def daySummaryStep (prefs : TripPreferences) (d : Dict) : Dict :=
  if strBlank (getVal d "summary") then
    setKey d "summary" (jstr (daySummary prefs)) else d

/-- The per-day rules of _normalize_itinerary (main.py 246-304) for the day at
(0-based) index i; non-dict days are left untouched (the loop continues). -/
def normDay (prefs : TripPreferences) (startOrd : Option Int) (i : Nat) : JVal → JVal
  | jobj d0 =>
      let d3 := daySummaryStep prefs (dayDateStep startOrd i (dayLabelStep i d0))
      match getVal d3 "activities" with
      | some (jarr acts) =>
          jobj (setKey d3 "activities" (jarr (mapWithIdx (normActEntry prefs) 0 acts)))
      | _ => jobj (setKey d3 "activities" (jarr []))
  | v => v

/-- Sum of the numeric amount fields over the dict items of costBreakdown
(main.py 432-436). -/
def sumAmounts : List JVal → Int
  | [] => 0
  | jobj m :: rest =>
      (match getVal m "amount" with
        | some (jnum n) => n
        | some (jbool b) => if b then 1 else 0
        | _ => 0) + sumAmounts rest
  | _ :: rest => sumAmounts rest

/-- _extract_total_cost (main.py 427-436).  A non-iterable truthy
costBreakdown makes the Python for-loop raise TypeError: modelled as none.
Iterating a string yields characters and a dict yields its keys; neither is a
dict item, so those cases sum to zero. -/
def extractTotalCost (it : Dict) : Option Int :=
  match getVal it "totalEstimatedCost" with
  | some (jnum n) => some n
  | some (jbool b) => some (if b then 1 else 0)
  | _ =>
      let bd := match getVal it "costBreakdown" with
        | some v => if pyTruthy v then v else jarr []
        | none => jarr []
      match bd with
      | jarr items => some (sumAmounts items)
      | jstr _ => some 0
      | jobj _ => some 0
      | _ => none

/-- _normalize_itinerary (main.py 235-310).  none models the exception that
escapes when _extract_total_cost iterates a non-iterable costBreakdown; every
other path always produces a document.  Note the early return when days is
not a list (main.py 237-239): the document-level cost fixes are skipped. -/
def normalizeItinerary (prefs : TripPreferences) (it : Dict) : Option Dict :=
  match getVal it "days" with
  | some (jarr ds) =>
      let startOrd := (parseIsoDate prefs.startDate).map
        (fun t => daysFromCivil t.1 t.2.1 t.2.2)
      let it1 := setKey it "days" (jarr (mapWithIdx (normDay prefs startOrd) 0 ds))
      let step2 : Option Dict :=
        if isNumLike (getVal it1 "totalEstimatedCost") then some it1
        else (extractTotalCost it1).map (fun n => setKey it1 "totalEstimatedCost" (jnum n))
      match step2 with
      | none => none
      | some it2 =>
          match getVal it2 "costBreakdown" with
          | some (jarr _) => some it2
          | _ => some (setKey it2 "costBreakdown" (jarr []))
  | _ => some (setKey it "days" (jarr []))

/-- Substring membership (Python "needle in haystack"). -/
def containsSub (p l : List Char) : Bool :=
  startsList l p ||
    (match l with
      | [] => false
      | _ :: rest => containsSub p rest)

def lowerS (s : String) : String := String.mk (s.data.map Char.toLower)

/-- Collapse whitespace runs to single spaces (re.sub of one or more
whitespace to a space); the flag records whether the previous character was
whitespace. -/
def collapseWS : List Char → Bool → List Char
  | [], _ => []
  | c :: rest, prevWS =>
      if pyWS c then
        (if prevWS then collapseWS rest true else ' ' :: collapseWS rest true)
      else c :: collapseWS rest false

/-- The character pipeline of _clean_snippet (main.py 447-451). -/
def cleanChars (l : List Char) : List Char :=
  pstripL (collapseWS (l.map (fun c => if c == '?' then '-' else c)) false)

/-- _clean_snippet applied to a JSON value: falsy values give the empty
string; a truthy non-string raises (none). -/
def cleanSnippet (v : JVal) : Option String :=
  if pyTruthy v then
    (match v with
      | jstr s => some (String.mk (cleanChars s.data))
      | _ => none)
  else some ""

/-- int() applied to a string after strip: optional sign, then digits. -/
def pyIntOfStr (s : String) : Option Int :=
  match pstripL s.data with
  | '+' :: rest => if isDigitL rest then some ((natOfDigits rest : Int)) else none
  | '-' :: rest => if isDigitL rest then some (-(natOfDigits rest : Int)) else none
  | rest => if isDigitL rest then some ((natOfDigits rest : Int)) else none

/-- str.split(sep, 1): the part before the first colon and, when a colon
exists, the remainder. -/
def splitColonOnce : List Char → List Char × Option (List Char)
  | [] => ([], none)
  | c :: rest =>
      if c == ':' then ([], some rest)
      else
        let r := splitColonOnce rest
        (c :: r.1, r.2)

/-- _parse_minutes (main.py 438-445): minutes since midnight of an HH:MM
string; any falsy/non-string/unparsable input gives none. -/
def parseMinutes : Option JVal → Option Int
  | some (jstr s) =>
      if s = "" then none
      else
        match splitColonOnce s.data with
        | (_, none) => none
        | (h, some m) =>
            match pyIntOfStr (String.mk h), pyIntOfStr (String.mk m) with
            | some hh, some mm => some (hh * 60 + mm)
            | _, _ => none
  | _ => none

/-- Python format spec with thousands separators for a nonnegative integer. -/
def commaRev : List Char → Nat → List Char
  | [], _ => []
  | c :: rest, k =>
      if k % 3 == 0 && k != 0 then ',' :: c :: commaRev rest (k + 1)
      else c :: commaRev rest (k + 1)

def commaFmt (n : Int) : String :=
  String.mk (commaRev (toString n.toNat).data.reverse 0).reverse

structure InsightAxis where
  id : String
  label : String
  score : Int
  status : String
  explanation : String
deriving DecidableEq, Repr

structure InsightReport where
  overallScore : Int
  badge : String
  axes : List InsightAxis
  alerts : List String
  suggestedActions : List String
deriving DecidableEq, Repr

def statusOf (s : Int) : String :=
  if s ≥ 80 then "great" else if s ≥ 60 then "caution" else "risk"

/-- The Budget Fit axis (main.py 492-506): score, alerts, actions.  The
source computes with floats; this model uses the exact rational value written
in integer arithmetic: int(82 + 25*cushion/b) for nonnegative cushion is
82 + (25*cushion) fdiv b, int(82 - 90*overshoot/b) truncates toward zero so
it is (82*b - 90*overshoot) tdiv b, and cushion > 0.15*budget is
100*cushion > 15*budget.  All claims are evaluated away from float-rounding
boundaries, where floats and exact rationals agree. -/
def budgetFit (budget total_cost : Int) : Int × List String × List String :=
  if budget ≤ 0 then (75, [], [])
  else if total_cost ≤ budget then
    let cushion := budget - total_cost
    let score := min 100 (82 + Int.fdiv (25 * cushion) (max budget 1))
    (score, [],
      if 100 * cushion > 15 * budget then
        ["Reinvest budget buffer into a signature local experience."]
      else [])
  else
    let overshoot := total_cost - budget
    let b := max budget 1
    let score := max 30 (Int.tdiv (82 * b - 90 * overshoot) b)
    (score,
      ["Projected spend exceeds budget by ?" ++ commaFmt overshoot ++ "."],
      ["Enable budget guardrails to auto-swap premium slots with value picks."])

/-- The usable activity dicts of one day for the scorer's traversals
(main.py 512-515): day.get("activities") or [] must be a list of dicts, or
the attribute accesses in the comprehension raise (none). -/
def dayActs (d : Dict) : Option (List Dict) :=
  let v := match getVal d "activities" with
    | some x => if pyTruthy x then x else jarr []
    | none => jarr []
  match v with
  | jarr l => l.mapM (fun e => match e with | jobj m => some m | _ => none)
  | _ => none

/-- The (day, activities) pairs the scorer iterates (main.py 509-515):
itinerary.get("days") or [] must be a list of dicts, or iteration raises. -/
def insightDays (it : Dict) : Option (List (Dict × List Dict)) :=
  let dv := match getVal it "days" with
    | some v => if pyTruthy v then v else jarr []
    | none => jarr []
  match dv with
  | jarr l => l.mapM (fun d => match d with
      | jobj m => (dayActs m).map (fun acts => (m, acts))
      | _ => none)
  | _ => none

def listMax : List Int → Int
  | [] => 0
  | x :: xs => xs.foldl max x

def listMin : List Int → Int
  | [] => 0
  | x :: xs => xs.foldl min x

/-- The Logistics Flow axis before its clamp (main.py 508-529): score and
actions. -/
def logisticsFlow (days : List (Dict × List Dict)) : Int × List String :=
  let spans := days.filterMap (fun p =>
    let minutes := p.2.filterMap (fun a => parseMinutes (getVal a "time"))
    match minutes with
    | [] => none
    | _ => some (listMax minutes - listMin minutes))
  let counts := days.map (fun p => (p.2.length : Int))
  let s1 : Int := 82
  -- avg > 720 over a nonempty list is sum > 720*len; avg > 4.2 is 5*sum > 21*len
  let s2 := if spans ≠ [] ∧ spans.sum > 720 * (spans.length : Int) then s1 - 12 else s1
  let s3 := if spans.any (fun span => span > 840) then s2 - 10 else s2
  if counts ≠ [] ∧ 5 * counts.sum > 21 * (counts.length : Int) then
    (s3 - 8, ["Trim one activity from the busiest day to reduce rush between stops."])
  else (s3, [])

/-- The Weather Resilience axis before its clamp (main.py 532-547): score,
alerts, actions. -/
def weatherResilience (it : Dict) : Int × List String × List String :=
  let adv := match getVal it "weatherAdvisory" with
    | some v => if pyTruthy v then v else jstr ""
    | none => jstr ""
  match adv with
  | jstr s =>
      if (pstripL s.data).isEmpty then (90, [], [])
      else
        let t := s.data.map Char.toLower
        if containsSub ("storm".data) t || containsSub ("cyclone".data) t ||
            containsSub ("heavy".data) t || containsSub ("extreme".data) t then
          (55, ["Severe weather flagged. Prepare plan B indoor experiences."],
            ["Shift exposed activities indoors on risky days to stay comfortable."])
        else if containsSub ("rain".data) t || containsSub ("shower".data) t then
          (70, [], ["Pack light rain gear and shift open-air slots earlier in the day."])
        else if containsSub ("heat".data) t then (68, [], [])
        else (78, [], [])
  | _ => (90, [], [])

/-- The lower-cased blob of cleaned activity titles and descriptions
(main.py 551-555). -/
def activitiesBlob (days : List (Dict × List Dict)) : Option String := do
  let parts ← (days.map Prod.snd).flatten.mapM (fun a => do
    let t ← cleanSnippet ((getVal a "title").getD (jstr ""))
    let d ← cleanSnippet ((getVal a "description").getD (jstr ""))
    pure (t ++ " " ++ d))
  pure (lowerS (String.intercalate " " parts))

def hitCount (blob : String) (kws : List String) : Int :=
  ((kws.filter (fun k => containsSub k.data blob.data)).length : Int)

/-- Transport-category cost total (main.py 559-564); none models the
TypeError of iterating a non-iterable truthy costBreakdown. -/
def transportCost (it : Dict) : Option Int :=
  let bd := match getVal it "costBreakdown" with
    | some v => if pyTruthy v then v else jarr []
    | none => jarr []
  match bd with
  | jarr items => some (items.foldl (fun acc item => match item with
      | jobj m =>
          (match getVal m "category" with
            | some (jstr c) =>
                if containsSub ("transport".data) (c.data.map Char.toLower) then
                  (match getVal m "amount" with
                    | some (jnum n) => acc + n
                    | some (jbool b) => acc + (if b then 1 else 0)
                    | _ => acc)
                else acc
            | _ => acc)
      | _ => acc) 0)
  | jstr _ => some 0
  | jobj _ => some 0
  | _ => none

/-- The Sustainability axis with its clamp (main.py 550-572): score and
actions. -/
def sustainabilityScore (blob : String) (it : Dict) (total_cost : Int) :
    Option (Int × List String) := do
  let green := hitCount blob ["walk", "walking", "cycle", "public", "metro", "local market"]
  let carbon := hitCount blob ["taxi", "cab", "private", "drive", "suv"]
  let base := 74 + green * 4 - carbon * 5
  let tcost ← transportCost it
  -- share = tcost/total_cost; share > 35/100 is (100*tcost - 35*total)*total > 0,
  -- share < 15/100 is (100*tcost - 15*total)*total < 0  (sign-correct cross
  -- multiplication for a nonzero, possibly negative, total)
  let adj : Int × List String :=
    if total_cost != 0 then
      (if (100 * tcost - 35 * total_cost) * total_cost > 0 then
        (-12, ["Swap at least one cab ride for a curated walking or metro experience."])
      else if (100 * tcost - 15 * total_cost) * total_cost < 0 then (6, [])
      else (0, []))
    else (0, [])
  pure (max 25 (min 100 (base + adj.1)), adj.2)

/-- The Experience Fit axis with its clamp (main.py 574-582): score and
actions. -/
def experienceFit (blob : String) (days : List (Dict × List Dict))
    (prefs : TripPreferences) : Option (Int × List String) := do
  let sums ← days.mapM (fun p => cleanSnippet ((getVal p.1 "summary").getD (jstr "")))
  let text := lowerS (blob ++ " " ++ String.intercalate " " sums)
  let kws := prefs.themes.map lowerS
  let nmatch := ((kws.filter (fun k => k != "" && containsSub k.data text.data)).length : Int)
  -- coverage = nmatch/len (or 1 with no themes); int(68 + 30*coverage) is
  -- 68 + (30*nmatch) fdiv len for nonnegative nmatch, and 98 when coverage = 1;
  -- coverage < 1/2 is 2*nmatch < len
  let L := (kws.length : Int)
  let score := if kws.isEmpty then 98
    else max 35 (min 100 (68 + Int.fdiv (30 * nmatch) L))
  pure (score,
    if 2 * nmatch < L ∧ kws ≠ [] then
      ["Infuse more of the selected themes into late-day slots for balance."]
    else [])

/-- compute_trip_insights (main.py 484-632).  none models any exception
escaping the scorer (the caller swallows it and omits the insights field);
the generatedAt timestamp is a side effect outside the pure contract. -/
def computeTripInsights (it : Dict) (prefs : TripPreferences) : Option InsightReport := do
  let budget := prefs.budget
  let total0 ← extractTotalCost it
  let total_cost := if total0 != 0 then total0 else if budget != 0 then budget else 1
  let bres := budgetFit budget total_cost
  let days ← insightDays it
  let lres := logisticsFlow days
  let wres := weatherResilience it
  let blob ← activitiesBlob days
  let sres ← sustainabilityScore blob it total_cost
  let eres ← experienceFit blob days prefs
  let budget_score := bres.1
  let logistics_score := max 35 (min 100 lres.1)
  let weather_score := max 30 (min 100 wres.1)
  let sustainability_score := sres.1
  let experience_score := eres.1
  let axes : List InsightAxis := [
    ⟨"budget", "Budget Fit", budget_score, statusOf budget_score,
      "Compares projected spend against your stated budget."⟩,
    ⟨"logistics", "Logistics Flow", logistics_score, statusOf logistics_score,
      "Looks at activity density and travel day stretch."⟩,
    ⟨"weather", "Weather Resilience", weather_score, statusOf weather_score,
      "Reflects risk from current advisory notes."⟩,
    ⟨"impact", "Sustainability", sustainability_score, statusOf sustainability_score,
      "Balances low-carbon modes and community-first picks."⟩,
    ⟨"experience", "Experience Fit", experience_score, statusOf experience_score,
      "Measures alignment between themes and planned highlights."⟩]
  -- int(round(s/5)): a five-integer mean can never be a half-integer, so
  -- Python's round-half-to-even is plain nearest: floor for remainder 0-2,
  -- ceil for remainder 3-4
  let s := budget_score + logistics_score + weather_score +
    sustainability_score + experience_score
  let overall := if Int.emod s 5 ≤ 2 then Int.fdiv s 5 else Int.fdiv s 5 + 1
  let badge := if overall ≥ 80 then "Launch-ready"
    else if overall ≥ 65 then "Tune & shine" else "Needs attention"
  pure ⟨overall, badge, axes, bres.2.1 ++ wres.2.1,
    bres.2.2 ++ lres.2 ++ wres.2.2 ++ sres.2 ++ eres.2⟩

mutual

/-- Python repr() of a JSON value (ASCII, ignoring string-escape rendering);
used through str() for non-string field values. -/
def pyRepr : JVal → String
  | jnull => "None"
  | jbool b => if b then "True" else "False"
  | jnum n => toString n
  | jstr s => "\x27" ++ s ++ "\x27"
  | jarr l => "[" ++ pyReprArr l ++ "]"
  | jobj m => "\x7b" ++ pyReprObj m ++ "\x7d"

def pyReprArr : List JVal → String
  | [] => ""
  | [v] => pyRepr v
  | v :: rest => pyRepr v ++ ", " ++ pyReprArr rest

def pyReprObj : List (String × JVal) → String
  | [] => ""
  | [(k, v)] => "\x27" ++ k ++ "\x27: " ++ pyRepr v
  | (k, v) :: rest => "\x27" ++ k ++ "\x27: " ++ pyRepr v ++ ", " ++ pyReprObj rest
end

/-- Python str() of a JSON value. -/
def pyStr : JVal → String
  | jstr s => s
  | v => pyRepr v

/-- One image record of the search collaborator (link, thumbnail, context). -/
structure ImgRec where
  link : Option String
  thumbnail : Option String
  context : Option String
deriving DecidableEq, Repr

/-- A fully bound recommendation item, fields in the construction order of
main.py 1005-1018. -/
structure FashionItem where
  title : String
  description : String
  style_tags : List String
  shopping_keywords : String
  shopping_url : Option String
  price_in_inr : Int
  weather_note : String
  image_url : Option String
  image_thumbnail : Option String
  image_context : Option String
deriving DecidableEq, Repr

/-- The price coercion of main.py 976-988: numbers pass through int(),
strings are stripped to digits and dots and parsed with float() then int()
(truncation); at most one dot and at least one digit, else the parse fails. -/
def priceOfJVal : Option JVal → Option Int
  | some (jnum n) => some n
  | some (jbool b) => some (if b then 1 else 0)
  | some (jstr s) =>
      let digitsOnly := s.data.filter (fun c => c.isDigit || c == '.')
      let dots := (digitsOnly.filter (fun c => c == '.')).length
      let digs := (digitsOnly.filter Char.isDigit).length
      if digitsOnly.isEmpty then none
      else if dots ≥ 2 ∨ digs = 0 then none
      else some ((natOfDigits (digitsOnly.takeWhile (fun c => c != '.')) : Int))
  | _ => none

def assocFind {α : Type} : List (String × α) → String → Option α
  | [], _ => none
  | (k, v) :: rest, key => if k = key then some v else assocFind rest key

abbrev ImgCache := List (String × List ImgRec)

/-- The dedup key of main.py 1001: lower-cased stripped title and
shopping_keywords. -/
def entryDedupKey (e : Dict) : String × String :=
  (lowerS (pstripS (pyStr ((getVal e "title").getD (jstr "")))),
   lowerS (pstripS (pyStr ((getVal e "shopping_keywords").getD (jstr "")))))

/-- One item of _prepare_fashion_results (main.py 959-1018): field checks,
style-tag coercion, price coercion, budget ceiling, shopping URL, cached
image lookup, hero-image requirement, then the dedup check; on success the
bound item plus the updated cache and seen set. -/
def processEntry (city : String) (budget : Option Int)
    (search : String → List ImgRec) (category : String) (cache : ImgCache)
    (seen : List (String × String)) (entry : JVal) :
    Except String (FashionItem × ImgCache × List (String × String)) :=
  match entry with
  | jobj e =>
      let title := pstripS (pyStr ((getVal e "title").getD (jstr "")))
      let description := pstripS (pyStr ((getVal e "description").getD (jstr "")))
      let weather_note := pstripS (pyStr ((getVal e "weather_note").getD (jstr "")))
      let shopping_keywords := pstripS (pyStr ((getVal e "shopping_keywords").getD (jstr "")))
      if title = "" ∨ description = "" ∨ shopping_keywords = "" ∨ weather_note = "" then
        Except.error ("Missing fields in " ++ category ++ " look")
      else
        let style_tags := match getVal e "style_tags" with
          | some (jarr tags) => tags.filterMap (fun t => match t with
              | jstr s => if (pstripL s.data).isEmpty then none else some (pstripS s)
              | _ => none)
          | _ => []
        match priceOfJVal (getVal e "price_in_inr") with
        | none => Except.error ("Missing price for " ++ category ++ " look \x27" ++ title ++ "\x27")
        | some price =>
            let overBudget := match budget with
              | some b => b != 0 && b > 0 && price > b
              | none => false
            if overBudget then
              Except.error ("Look \x27" ++ title ++ "\x27 exceeds budget in " ++ category)
            else
              let shopping_url := some ("https://www.google.com/search?q=" ++
                String.mk (shopping_keywords.data.map (fun c => if c == ' ' then '+' else c)))
              let qterms := [shopping_keywords, city, category, "travel outfit"].filter
                (fun t => t != "")
              let query := pstripS (String.intercalate " " qterms)
              let ckey := lowerS (pstripS query)
              let fetched : List ImgRec × ImgCache := match assocFind cache ckey with
                | some imgs => (imgs, cache)
                | none => (search query, cache ++ [(ckey, search query)])
              let hero? := fetched.1.find? (fun img => match img.link with
                | some s => s != ""
                | none => false)
              match hero? with
              | none =>
                  Except.error ("No imagery for " ++ category ++ " look \x27" ++ title ++ "\x27")
              | some hero =>
                  let ekey := (lowerS title, lowerS shopping_keywords)
                  if ekey ∈ seen then
                    Except.error ("Duplicate look detected in " ++ category)
                  else
                    Except.ok
                      (⟨title, description, style_tags, shopping_keywords, shopping_url,
                        price, weather_note, hero.link, hero.thumbnail, hero.context⟩,
                       fetched.2, seen ++ [ekey])
  | _ => Except.error ("Invalid entry in " ++ category)

/-- The per-category entry loop of _prepare_fashion_results, threading the
image cache and the seen dedup set in input order. -/
def processEntries (city : String) (budget : Option Int)
    (search : String → List ImgRec) (category : String) :
    List JVal → ImgCache → List (String × String) →
    Except String (List FashionItem × ImgCache)
  | [], cache, _ => Except.ok ([], cache)
  | e :: rest, cache, seen =>
      match processEntry city budget search category cache seen e with
      | Except.error msg => Except.error msg
      | Except.ok (item, cache2, seen2) =>
          match processEntries city budget search category rest cache2 seen2 with
          | Except.error msg => Except.error msg
          | Except.ok (items, cache3) => Except.ok (item :: items, cache3)

/-- The category loop of _prepare_fashion_results (main.py 953-1022); the
image cache is shared across categories, the seen set is per category. -/
def processCategories (city : String) (budget : Option Int)
    (search : String → List ImgRec) :
    List String → Dict → ImgCache → Except String (List (String × List FashionItem))
  | [], _, _ => Except.ok []
  | cat :: rest, payload, cache =>
      match getVal payload cat with
      | some (jarr entries) =>
          if entries.length != 4 then Except.error ("Incomplete " ++ cat ++ " looks")
          else
            match processEntries city budget search cat entries cache [] with
            | Except.error m => Except.error m
            | Except.ok (items, cache2) =>
                if items.length != 4 then Except.error ("Incomplete " ++ cat ++ " looks")
                else
                  match processCategories city budget search rest payload cache2 with
                  | Except.error m => Except.error m
                  | Except.ok results => Except.ok ((cat, items) :: results)
      | _ => Except.error ("Incomplete " ++ cat ++ " looks")

/-- _prepare_fashion_results (main.py 939-1022) with the image-search
collaborator as a parameter (search_images; an HTTPException from it is
caught and treated as an empty result list, so the parameter is total). -/
def prepare_fashion_results (city : String) (budget : Option Int)
    (search : String → List ImgRec) (payload : Dict) :
    Except String (List (String × List FashionItem)) :=
  processCategories city budget search ["men", "women", "kids", "accessories"] payload []

/-- MAX_GEMINI_ATTEMPTS (main.py 48). -/
def MAX_GEMINI_ATTEMPTS : Nat := 1

/-- _system_instruction (main.py 640-650). -/
def system_instruction (prefs : TripPreferences) (day_count : Int) : String :=
  "Write terse JSON in English. Keep all strings short. " ++
  "summary = 32 words. title = 10 words. description = 32 words. " ++
  "Use 24h times like 09:00. Costs are integers. " ++
  "Destination is " ++ prefs.destination ++ ", India only. " ++
  "Mark source as \"places-api\" for real POIs, else \"ai\". " ++
  "Each activity object MUST include keys time, title, description, location, cost, source. " ++
  "Create exactly " ++ toString day_count ++ " days with 3-4 activities each."

/-- The stricter instruction variant (main.py 1096-1099). -/
def strict_instruction (prefs : TripPreferences) (day_count : Int) : String :=
  system_instruction prefs day_count ++
  " Every day MUST contain 3-4 activities and each activity MUST include title, description, location, cost (integer or descriptive string), and source."

/-- The acceptance step of a successful attempt (main.py 1149-1152):
overwrite destination, budget, currency and createdAt on the parsed
candidate; now stands for the utcnow timestamp. -/
def acceptCandidate (prefs : TripPreferences) (now : String) (m : Dict) : Dict :=
  setKey (setKey (setKey (setKey m
    "destination" (jstr (prefs.destination ++ ", India")))
    "budget" (jnum prefs.budget))
    "currency" (jstr "INR"))
    "createdAt" (jstr now)

/-- The attempt loop of generate_live_itinerary (main.py 1104-1156).
Collaborators are parameters: loads models json.loads (its decode-error
message on failure), gen models the Gemini call, taking the attempt index
and the system instruction used and returning the raw response text (the
empty string models an empty response).  Returns the loop result (the
accepted candidate after the field overwrites, or the terminal error) and
the trace of attempts performed as (attempt index, instruction) pairs.
The fuel counts remaining attempts; attempt is the current index. -/
def geminiAttempts (loads : String → Except String JVal) (gen : Nat → String → String)
    (prefs : TripPreferences) (now : String) (dayCount : Int) :
    Nat → Nat → Option String → (Except String Dict) × List (Nat × String)
  | 0, _, lastError =>
      (Except.error (lastError.getD "Failed to generate a complete itinerary"), [])
  | Nat.succ remaining, attempt, _ =>
      let instruction := if attempt = 0 then system_instruction prefs dayCount
        else strict_instruction prefs dayCount
      let raw := gen attempt instruction
      let outcome : Except String Dict ⊕ String :=
        if raw = "" then Sum.inr "Gemini returned an empty response"
        else
          match loads raw with
          | Except.ok (jobj m) => Sum.inl (Except.ok (acceptCandidate prefs now m))
          | Except.ok _ =>
              Sum.inl (Except.error "TypeError: candidate document is not a JSON object")
          | Except.error _ =>
              match extract_json_object raw with
              | Except.error e =>
                  Sum.inr ("Parse failure on attempt " ++ toString (attempt + 1) ++ ": " ++ e)
              | Except.ok cleaned =>
                  match loads cleaned with
                  | Except.ok (jobj m) => Sum.inl (Except.ok (acceptCandidate prefs now m))
                  | Except.ok _ =>
                      Sum.inl (Except.error "TypeError: candidate document is not a JSON object")
                  | Except.error e =>
                      Sum.inr ("JSON load failure on attempt " ++ toString (attempt + 1) ++ ": " ++ e)
      match outcome with
      | Sum.inl res => (res, [(attempt, instruction)])
      | Sum.inr reason =>
          let r := geminiAttempts loads gen prefs now dayCount remaining (attempt + 1) (some reason)
          (r.1, (attempt, instruction) :: r.2)

/-- The attempt loop as configured by the source: range(MAX_GEMINI_ATTEMPTS)
starting from attempt 0 with no recorded error. -/
def run_gemini_attempts (loads : String → Except String JVal)
    (gen : Nat → String → String) (prefs : TripPreferences) (now : String)
    (dayCount : Int) : (Except String Dict) × List (Nat × String) :=
  geminiAttempts loads gen prefs now dayCount MAX_GEMINI_ATTEMPTS 0 none

/-- generate_live_itinerary (main.py 1088-1158) up to and including the
normalization pass: day-count computation, the attempt loop, then
_normalize_itinerary on the accepted candidate.  The later best-effort
enrichment stages (activity images, narrations, insights, meta) write other
keys and are modelled separately. -/
def generate_live_core (loads : String → Except String JVal)
    (gen : Nat → String → String) (prefs : TripPreferences) (now : String) :
    Except String Dict :=
  match days_between_inclusive prefs.startDate prefs.endDate with
  | none => Except.error "ValueError: invalid date in preferences"
  | some dc =>
      match (run_gemini_attempts loads gen prefs now dc).1 with
      | Except.error e => Except.error e
      | Except.ok it =>
          match normalizeItinerary prefs it with
          | some d => Except.ok d
          | none => Except.error "TypeError in _extract_total_cost"

def tPrefs : TripPreferences :=
  { destination := "Goa", startDate := "2025-01-01", endDate := "2025-01-03",
    themes := ["heritage"] }

/-- An HH:MM 24-hour clock string: two digits at most 23, a colon, two
digits at most 59. -/
def wellFormedTime (s : String) : Bool :=
  match s.data with
  | [h1, h2, c, m1, m2] =>
      h1.isDigit && h2.isDigit && c == ':' && m1.isDigit && m2.isDigit &&
      decide (digitVal h1 * 10 + digitVal h2 ≤ 23) &&
      decide (digitVal m1 * 10 + digitVal m2 ≤ 59)
  | _ => false

/-! ### C5, C6: the JSON extractor -/

/-- The nesting depth after consuming a character list, with the same
string-awareness as the extractor's scan but no early return; an independent
reference for what "balanced" means. -/
def depthRun : List Char → Int → Bool → Bool → Int
  | [], d, _, _ => d
  | c :: rest, d, istr, esc =>
      let istr2 := if c == '"' && !esc then !istr else istr
      if istr2 && c == '\\' && !esc then depthRun rest d istr2 true
      else if istr2 then depthRun rest d istr2 false
      else if c == '\x7b' then depthRun rest (d + 1) istr2 false
      else if c == '\x7d' then depthRun rest (d - 1) istr2 false
      else depthRun rest d istr2 false

/-- Matched nesting of a scanned span: after every proper step the depth is
at least 1, and the final character brings it to exactly 0. -/
def matchedAfter : List Char → Int → Bool → Bool → Bool
  | [], d, _, _ => d == 0
  | c :: rest, d, istr, esc =>
      let istr2 := if c == '"' && !esc then !istr else istr
      let structural := !istr2
      let d2 : Int :=
        if structural && c == '\x7b' then d + 1
        else if structural && c == '\x7d' then d - 1
        else d
      let esc2 := istr2 && c == '\\' && !esc
      match rest with
      | [] => d2 == 0
      | _ :: _ => decide (1 ≤ d2) && matchedAfter rest d2 istr2 esc2

/-- Matched brace nesting of an extracted object string, starting outside
any JSON string at depth zero. -/
def balancedNesting (s : String) : Bool := matchedAfter s.data 0 false false

/-- One character step of the scanner state (depth, in-string, escape). -/
def stepState (c : Char) (d : Int) (istr esc : Bool) : Int × Bool × Bool :=
  let istr2 := if c == '"' && !esc then !istr else istr
  if istr2 && c == '\\' && !esc then (d, istr2, true)
  else if istr2 then (d, istr2, false)
  else if c == '\x7b' then (d + 1, istr2, false)
  else if c == '\x7d' then (d - 1, istr2, false)
  else (d, istr2, false)

/-- Does the scanner return on this character (a structural closing brace
bringing the depth to zero)? -/
def isReturn (c : Char) (d : Int) (istr esc : Bool) : Bool :=
  let istr2 := if c == '"' && !esc then !istr else istr
  !(istr2 && c == '\\' && !esc) && !istr2 && (c == '\x7d') && (d - 1 == 0)

/-- A sample candidate document for the normalizer idempotence witness: one
proper day with one partial activity, one non-dict day, and a non-numeric
total cost. -/
def cDoc7 : Dict :=
  [("days", jarr [jobj [("activities", jarr [jobj [("title", jstr " Fort walk "),
      ("cost", jstr " 250 ")]]), ("dateLabel", jstr "Arrival")], jstr "odd"]),
   ("totalEstimatedCost", jstr "about 1200")]

/-! ### C9: recommendation dedup fails the whole validation pass -/

def exceptIsOk {ε α : Type} : Except ε α → Bool
  | Except.ok _ => true
  | Except.error _ => false

def sampleSearch : String → List ImgRec :=
  fun _ => [⟨some "https://img.example/a.jpg", some "https://img.example/t.jpg",
    some "https://img.example/ctx"⟩]

def c9item1 : JVal := jobj [("title", jstr "Linen Shirt"),
  ("description", jstr "Breathable linen shirt."), ("style_tags", jarr [jstr "linen"]),
  ("shopping_keywords", jstr "men linen shirt"), ("price_in_inr", jnum 2000),
  ("weather_note", jstr "Cool.")]

def c9item2 : JVal := jobj [("title", jstr "Linen Shirt"),
  ("description", jstr "A different description."), ("style_tags", jarr [jstr "summer"]),
  ("shopping_keywords", jstr "men linen shirt"), ("price_in_inr", jnum 3000),
  ("weather_note", jstr "Warm.")]

def c9payload : Dict := [("men", jarr [c9item1, c9item2, jnull, jnull])]

/-- Number of days of a document (0 when days is not a list). -/
def docDaysLen (d : Dict) : Nat :=
  match getVal d "days" with
  | some (jarr l) => l.length
  | _ => 0

/-- Activity count of one day entry: none for a non-dict day, the list
length when activities is a list, none otherwise. -/
def actsCount : JVal → Option Nat
  | jobj da =>
      (match getVal da "activities" with
        | some (jarr l) => some l.length
        | _ => none)
  | _ => none

/-- What normalization turns a day entry's activity count into: preserved
for a list, reset to zero for a non-list, untouched (none) for a non-dict
day. -/
def normedActsCount : JVal → Option Nat
  | jobj da =>
      some (match getVal da "activities" with
        | some (jarr l) => l.length
        | _ => 0)
  | _ => none

/-- The per-day activity counts of the days list of a document. -/
def docActsProfile (d : Dict) : List (Option Nat) :=
  match getVal d "days" with
  | some (jarr l) => l.map actsCount
  | _ => []

def cDoc3 : Dict :=
  [("destination", jstr "Goa"), ("budget", jnum 50000), ("currency", jstr "INR"),
   ("days", jarr [jobj [("summary", jstr "Beach day"),
     ("activities", jarr [jobj [("title", jstr "Beach walk")]])]])]

/-- Is the candidate time of an activity entry absent/blank/non-string (so
that normalization synthesizes it)?  Non-dict entries are replaced by empty
dicts, so they count as blank. -/
def entryTimeBlank : JVal → Bool
  | jobj a => strBlank (getVal a "time")
  | _ => true

/-- The time value of activity j of day i of a document. -/
def timeAt (d : Dict) (i j : Nat) : Option JVal :=
  match getVal d "days" with
  | some (jarr l) =>
      (match l.get? i with
        | some (jobj da) =>
            (match getVal da "activities" with
              | some (jarr acts) =>
                  (match acts.get? j with
                    | some (jobj a) => getVal a "time"
                    | _ => none)
              | _ => none)
        | _ => none)
  | _ => none

def cDoc4 : Dict :=
  [("days", jarr [jobj [("activities", jarr [jobj [("time", jstr " 25:99 ")]])]])]

def cDoc4b : Dict :=
  [("days", jarr [jobj [("activities", jarr [jobj [("title", jstr "Walk")]])]])]

/-! ### C1, C2: the attempt loop -/

def c1loads : String → Except String JVal :=
  fun s => if s = "\x7b\x7d" then Except.ok (jobj [])
    else Except.error "Expecting value: line 1 column 1 (char 0)"

def c1gen : Nat → String → String := fun _ _ => "\x7b\x7d"

def c2goodText : String := "\x7b\"destination\": \"Goa\"\x7d"

def c2badText : String := "\x7b\"destination\": \"Goa\""

def c2loads : String → Except String JVal :=
  fun s => if s = c2goodText then Except.ok (jobj [("destination", jstr "Goa")])
    else Except.error "Expecting value: line 1 column 1 (char 0)"

def c2gen : Nat → String → String :=
  fun attempt _ => if attempt = 0 then c2badText else c2goodText

def c8doc : Dict := [("totalEstimatedCost", jnum 40000)]

def c8rep : InsightReport := (computeTripInsights c8doc tPrefs).getD ⟨0, "", [], [], []⟩

example : extract_json_object "noise \x7b\"a\": 1\x7d tail" = Except.ok "\x7b\"a\": 1\x7d" := by rfl

example : extract_json_object "```json\n\x7b\"a\": 1\x7d\n```" = Except.ok "\x7b\"a\": 1\x7d" := by rfl

example : extract_json_object "x \x7b y \x7b\x7d" = Except.error "Incomplete JSON object in response" := by rfl

example : extract_json_object "no braces here" = Except.error "No JSON object found in response" := by rfl

example : isoOfOrd (daysFromCivil 2025 1 1) = "2025-01-01" := by rfl

example : isoOfOrd (daysFromCivil 2024 2 28 + 1) = "2024-02-29" := by rfl

example : isoOfOrd (daysFromCivil 2025 12 31 + 1) = "2026-01-01" := by rfl

example : parseIsoDate "2025-13-01" = none := by rfl

example : days_between_inclusive "2025-01-01" "2025-01-03" = some 3 := by rfl

example : days_between_inclusive "2025-01-03" "2025-01-01" = some 1 := by rfl

example : parseMinutes (some (jstr "09:30")) = some 570 := by rfl

example : parseMinutes (some (jstr "9:5:3")) = none := by rfl

example : parseMinutes (some (jstr " 10 : 20 ")) = some 620 := by rfl

example : parseMinutes (some (jnum 5)) = none := by rfl

example : commaFmt 1234567 = "1,234,567" := by rfl

example : commaFmt 400 = "400" := by rfl

example : priceOfJVal (some (jstr "?2,500")) = some 2500 := by rfl

example : priceOfJVal (some (jstr "Rs 45.90")) = some 45 := by rfl

example : priceOfJVal (some (jstr "free")) = none := by rfl

example : priceOfJVal (some (jstr "1.2.3")) = none := by rfl

/-! ### Basic lemmas about the dict and string helpers -/

@[simp] theorem getVal_setKey (m : Dict) (k k2 : String) (v : JVal) :
    getVal (setKey m k v) k2 = if k2 = k then some v else getVal m k2 := by
  induction m with
  | nil =>
      simp only [setKey, getVal]
      by_cases h : k2 = k
      · subst h; simp
      · rw [if_neg (fun hh => h hh.symm), if_neg h]
  | cons p rest ih =>
      obtain ⟨k1, v1⟩ := p
      simp only [setKey]
      by_cases h1 : k1 = k
      · subst h1
        rw [if_pos rfl]
        simp only [getVal]
        by_cases h2 : k1 = k2
        · subst h2; simp
        · rw [if_neg h2, if_neg (fun hh => h2 hh.symm), if_neg h2]
      · rw [if_neg h1]
        simp only [getVal, ih]
        by_cases h2 : k1 = k2
        · subst h2
          rw [if_pos rfl, if_neg h1, if_pos rfl]
        · rw [if_neg h2]
          by_cases h3 : k2 = k
          · rw [if_pos h3, if_pos h3]
          · rw [if_neg h3, if_neg h3, if_neg h2]

theorem setKey_same {m : Dict} {k : String} {v : JVal}
    (h : getVal m k = some v) : setKey m k v = m := by
  induction m with
  | nil => simp [getVal] at h
  | cons p rest ih =>
      obtain ⟨k1, v1⟩ := p
      by_cases h1 : k1 = k
      · subst h1
        simp [getVal] at h
        simp [setKey, h]
      · simp [getVal, h1] at h
        simp [setKey, h1, ih h]

theorem dropWhile_head_not {p : Char → Bool} {l : List Char} {c : Char}
    {r : List Char} (h : l.dropWhile p = c :: r) : p c = false := by
  induction l with
  | nil => simp [List.dropWhile] at h
  | cons a as ih =>
      by_cases ha : p a
      · simp [List.dropWhile, ha] at h
        exact ih h
      · simp [List.dropWhile, ha] at h
        obtain ⟨rfl, _⟩ := h
        simpa using ha

theorem dropWhile_decomp (p : Char → Bool) (l : List Char) :
    ∃ t, l = t ++ l.dropWhile p ∧ ∀ c ∈ t, p c = true := by
  induction l with
  | nil => exact ⟨[], by simp⟩
  | cons a as ih =>
      by_cases ha : p a
      · obtain ⟨t, ht, hall⟩ := ih
        refine ⟨a :: t, ?_, ?_⟩
        · simp [List.dropWhile, ha]
          exact ht
        · intro c hc
          rcases List.mem_cons.mp hc with hc | hc
          · simpa [hc] using ha
          · exact hall c hc
      · exact ⟨[], by simp [List.dropWhile, ha]⟩

theorem dropWhile_of_head_not {p : Char → Bool} {c : Char} {r : List Char}
    (h : p c = false) : (c :: r).dropWhile p = c :: r := by
  simp [List.dropWhile, h]

theorem dropWhile_of_all_not {p : Char → Bool} {l : List Char}
    (h : ∀ c ∈ l, p c = false) : l.dropWhile p = l := by
  cases l with
  | nil => rfl
  | cons c r => exact dropWhile_of_head_not (h c (by simp))

/-- The stripped list sits inside the original: whitespace-only material on
both sides. -/
theorem pstripL_decomp (l : List Char) :
    ∃ t1 t2, l = t1 ++ pstripL l ++ t2 ∧ (∀ c ∈ t1, pyWS c = true) ∧
      ∀ c ∈ t2, pyWS c = true := by
  obtain ⟨t1, ht1, hall1⟩ := dropWhile_decomp pyWS l
  obtain ⟨t2, ht2, hall2⟩ := dropWhile_decomp pyWS (l.dropWhile pyWS).reverse
  refine ⟨t1, t2.reverse, ?_, hall1, fun c hc => hall2 c (by simpa using hc)⟩
  have h2 : l.dropWhile pyWS = pstripL l ++ t2.reverse := by
    have h := congrArg List.reverse ht2
    simp only [List.reverse_reverse, List.reverse_append] at h
    exact h
  calc l = t1 ++ l.dropWhile pyWS := ht1
    _ = t1 ++ (pstripL l ++ t2.reverse) := by rw [h2]
    _ = t1 ++ pstripL l ++ t2.reverse := by rw [List.append_assoc]

theorem mem_pstripL {l : List Char} {c : Char} (hc : c ∈ l)
    (hws : pyWS c = false) : c ∈ pstripL l := by
  obtain ⟨t1, t2, hdec, h1, h2⟩ := pstripL_decomp l
  rw [hdec] at hc
  simp only [List.mem_append] at hc
  rcases hc with (hc | hc) | hc
  · rw [h1 c hc] at hws; cases hws
  · exact hc
  · rw [h2 c hc] at hws; cases hws

theorem pstripL_ne_nil {l : List Char} {c : Char} (hc : c ∈ l)
    (hws : pyWS c = false) : pstripL l ≠ [] := by
  intro hnil
  have hmem := mem_pstripL hc hws
  rw [hnil] at hmem
  simp at hmem

theorem pstripL_head_not {l : List Char} {c : Char} {r : List Char}
    (h : pstripL l = c :: r) : pyWS c = false := by
  obtain ⟨t2, ht2, _⟩ := dropWhile_decomp pyWS (l.dropWhile pyWS).reverse
  have hA : l.dropWhile pyWS = pstripL l ++ t2.reverse := by
    have hh := congrArg List.reverse ht2
    simp only [List.reverse_reverse, List.reverse_append] at hh
    exact hh
  have hcons : l.dropWhile pyWS = c :: (r ++ t2.reverse) := by
    rw [hA, h, List.cons_append]
  exact dropWhile_head_not hcons

theorem pstripL_last_not {l : List Char} {c : Char} {r : List Char}
    (h : (pstripL l).reverse = c :: r) : pyWS c = false := by
  unfold pstripL at h
  rw [List.reverse_reverse] at h
  exact dropWhile_head_not h

theorem pstripL_idem (l : List Char) : pstripL (pstripL l) = pstripL l := by
  cases hP : pstripL l with
  | nil => rfl
  | cons c r =>
      have hhead : pyWS c = false := pstripL_head_not hP
      show (((c :: r).dropWhile pyWS).reverse.dropWhile pyWS).reverse = c :: r
      rw [dropWhile_of_head_not hhead]
      cases hR : (c :: r).reverse with
      | nil => simp at hR
      | cons d s =>
          have hlast : pyWS d = false :=
            pstripL_last_not (l := l) (r := s) (by rw [hP]; exact hR)
          rw [dropWhile_of_head_not hlast, ← hR, List.reverse_reverse]

theorem pstripL_of_all_not {l : List Char} (h : ∀ c ∈ l, pyWS c = false) :
    pstripL l = l := by
  unfold pstripL
  rw [dropWhile_of_all_not h, dropWhile_of_all_not (by intro c hc; exact h c (by simpa using hc))]
  simp

theorem mapWithIdx_length (f : Nat → α → β) (n : Nat) (l : List α) :
    (mapWithIdx f n l).length = l.length := by
  induction l generalizing n with
  | nil => rfl
  | cons a as ih => simp [mapWithIdx, ih]

theorem mapWithIdx_get (f : Nat → α → β) (n : Nat) (l : List α) (i : Nat) :
    (mapWithIdx f n l).get? i = (l.get? i).map (f (n + i)) := by
  induction l generalizing n i with
  | nil => simp [mapWithIdx]
  | cons a as ih =>
      cases i with
      | zero => simp [mapWithIdx]
      | succ j =>
          simp only [mapWithIdx, List.get?]
          rw [ih (n + 1) j]
          have hnj : n + 1 + j = n + (j + 1) := by omega
          rw [hnj]

theorem mapWithIdx_idem {f : Nat → α → α} (hf : ∀ i a, f i (f i a) = f i a)
    (n : Nat) (l : List α) : mapWithIdx f n (mapWithIdx f n l) = mapWithIdx f n l := by
  induction l generalizing n with
  | nil => rfl
  | cons a as ih => simp [mapWithIdx, hf, ih]

/-! ### The Normalizer touches only days, totalEstimatedCost, costBreakdown -/

theorem normalizeItinerary_getVal_other {prefs : TripPreferences} {it d : Dict}
    {k : String} (hk1 : k ≠ "days") (hk2 : k ≠ "totalEstimatedCost")
    (hk3 : k ≠ "costBreakdown") (h : normalizeItinerary prefs it = some d) :
    getVal d k = getVal it k := by
  unfold normalizeItinerary at h
  split at h
  · rename_i ds hds
    dsimp only at h
    split at h
    · exact absurd h (by simp)
    · rename_i it2 heq2
      have hit2 : getVal it2 k = getVal it k := by
        split at heq2
        · obtain rfl : it2 = setKey it "days" (jarr (mapWithIdx (normDay prefs
            ((parseIsoDate prefs.startDate).map (fun t => daysFromCivil t.1 t.2.1 t.2.2))) 0 ds)) :=
            (Option.some.inj heq2).symm
          simp [hk1]
        · rw [Option.map_eq_some'] at heq2
          obtain ⟨n, _, rfl⟩ := heq2
          simp [hk1, hk2]
      split at h
      · obtain rfl : it2 = d := Option.some.inj h
        exact hit2
      · obtain rfl : setKey it2 "costBreakdown" (jarr []) = d := Option.some.inj h
        simp [hk3, hit2]
  · obtain rfl : setKey it "days" (jarr []) = d := Option.some.inj h
    simp [hk1]

/-- C10: for every accepted generation attempt, the pipeline overwrites
destination with "(preferences.destination), India", budget with the
preferences' budget and currency with "INR" before normalization, and the
Normalizer leaves those keys untouched, so the three fields of the resulting
itinerary are fixed functions of the request preferences alone - in
particular two runs that differ only in what the model produced (the
candidate dicts m1, m2) agree on them. -/
theorem C10_prefs_determine_identity_fields (prefs : TripPreferences)
    (now : String) (m d : Dict)
    (h : normalizeItinerary prefs (acceptCandidate prefs now m) = some d) :
    getVal d "destination" = some (jstr (prefs.destination ++ ", India")) ∧
    getVal d "budget" = some (jnum prefs.budget) ∧
    getVal d "currency" = some (jstr "INR") := by
  have h1 := normalizeItinerary_getVal_other (k := "destination")
    (by decide) (by decide) (by decide) h
  have h2 := normalizeItinerary_getVal_other (k := "budget")
    (by decide) (by decide) (by decide) h
  have h3 := normalizeItinerary_getVal_other (k := "currency")
    (by decide) (by decide) (by decide) h
  refine ⟨?_, ?_, ?_⟩
  · rw [h1]; simp [acceptCandidate]
  · rw [h2]; simp [acceptCandidate]
  · rw [h3]; simp [acceptCandidate]

/-! ### Per-step field lemmas for the Normalizer -/

theorem getVal_actTitle_other (j : Nat) (a : Dict) {k : String} (h : k ≠ "title") :
    getVal (actTitle j a) k = getVal a k := by
  unfold actTitle; split <;> simp [h]

theorem getVal_actDescription_other (a : Dict) {k : String} (h : k ≠ "description") :
    getVal (actDescription a) k = getVal a k := by
  unfold actDescription; split <;> simp [h]

theorem getVal_actLocation_other (prefs : TripPreferences) (a : Dict) {k : String}
    (h : k ≠ "location") : getVal (actLocation prefs a) k = getVal a k := by
  unfold actLocation; split <;> simp [h]

theorem getVal_actTime_other (j : Nat) (a : Dict) {k : String} (h : k ≠ "time") :
    getVal (actTime j a) k = getVal a k := by
  unfold actTime
  split
  · split <;> simp [h]
  · simp [h]

theorem getVal_actCost_other (a : Dict) {k : String} (h : k ≠ "cost") :
    getVal (actCost a) k = getVal a k := by
  unfold actCost
  split
  · simp [h]
  · simp [h]
  · dsimp only; split <;> simp [h]
  · simp [h]

theorem getVal_actSource_other (a : Dict) {k : String} (h : k ≠ "source") :
    getVal (actSource a) k = getVal a k := by
  unfold actSource
  split
  · split <;> simp [h]
  · simp [h]

theorem getVal_actImages_other (a : Dict) {k : String} (h : k ≠ "images") :
    getVal (actImages a) k = getVal a k := by
  unfold actImages
  split
  · rfl
  · simp [h]

theorem getVal_dayLabelStep_other (i : Nat) (d : Dict) {k : String}
    (h : k ≠ "dateLabel") : getVal (dayLabelStep i d) k = getVal d k := by
  unfold dayLabelStep; split <;> simp [h]

theorem getVal_dayDateStep_other (so : Option Int) (i : Nat) (d : Dict) {k : String}
    (h : k ≠ "date") : getVal (dayDateStep so i d) k = getVal d k := by
  unfold dayDateStep
  cases so with
  | none => rfl
  | some ord => dsimp only; split <;> simp [h]

theorem getVal_daySummaryStep_other (prefs : TripPreferences) (d : Dict) {k : String}
    (h : k ≠ "summary") : getVal (daySummaryStep prefs d) k = getVal d k := by
  unfold daySummaryStep; split <;> simp [h]

example : wellFormedTime "09:00" = true := by rfl

example : wellFormedTime "23:59" = true := by rfl

example : wellFormedTime "25:99" = false := by rfl

example : wellFormedTime "9:30" = false := by rfl

theorem wellFormedTime_slotTime (j : Nat) : wellFormedTime (slotTime j) = true := by
  unfold slotTime
  by_cases hj : j ≤ 6
  · interval_cases j <;> rfl
  · have h22 : min (9 + 2 * j) 22 = 22 := by omega
    rw [h22]
    rfl

/-- When the candidate time is absent, blank or not a string, the time step
synthesizes the slot default. -/
theorem actTime_of_blank {j : Nat} {a : Dict}
    (h : strBlank (getVal a "time") = true) :
    actTime j a = setKey a "time" (jstr (slotTime j)) := by
  unfold actTime
  cases hv : getVal a "time" with
  | none => rfl
  | some v =>
      cases v with
      | jstr s =>
          rw [hv] at h
          unfold strBlank at h
          simp only [h]
          rw [if_pos (by simpa using h)]
      | jnull => rfl
      | jbool b => rfl
      | jnum n => rfl
      | jarr l => rfl
      | jobj m => rfl

/-- A blank candidate time comes out of the activity rules as the
well-formed synthesized slot. -/
theorem normActivity_time_of_blank (prefs : TripPreferences) (j : Nat) (a : Dict)
    (h : strBlank (getVal a "time") = true) :
    getVal (normActivity prefs j a) "time" = some (jstr (slotTime j)) := by
  unfold normActivity
  have hpre : getVal (actLocation prefs (actDescription (actTitle j a))) "time"
      = getVal a "time" := by
    rw [getVal_actLocation_other _ _ (by decide),
      getVal_actDescription_other _ (by decide),
      getVal_actTitle_other _ _ (by decide)]
  rw [getVal_actImages_other _ (by decide), getVal_actSource_other _ (by decide),
    getVal_actCost_other _ (by decide),
    actTime_of_blank (by rw [hpre]; exact h)]
  simp

theorem normActEntry_time_of_blank (prefs : TripPreferences) (j : Nat) (e : JVal)
    (h : match e with
      | jobj a => strBlank (getVal a "time") = true
      | _ => True) :
    ∃ a2, normActEntry prefs j e = jobj a2 ∧
      getVal a2 "time" = some (jstr (slotTime j)) := by
  cases e with
  | jobj a =>
      exact ⟨normActivity prefs j a, rfl, normActivity_time_of_blank prefs j a h⟩
  | jnull => exact ⟨normActivity prefs j [], rfl, normActivity_time_of_blank prefs j [] rfl⟩
  | jbool b => exact ⟨normActivity prefs j [], rfl, normActivity_time_of_blank prefs j [] rfl⟩
  | jnum n => exact ⟨normActivity prefs j [], rfl, normActivity_time_of_blank prefs j [] rfl⟩
  | jstr s => exact ⟨normActivity prefs j [], rfl, normActivity_time_of_blank prefs j [] rfl⟩
  | jarr l => exact ⟨normActivity prefs j [], rfl, normActivity_time_of_blank prefs j [] rfl⟩

/-- The day rules on a day whose activities is already a list: the three
text fields are defaulted and the activity list is mapped entrywise. -/
theorem normDay_activities (prefs : TripPreferences) (so : Option Int) (i : Nat)
    (da : Dict) (acts : List JVal)
    (ha : getVal da "activities" = some (jarr acts)) :
    normDay prefs so i (jobj da) =
      jobj (setKey (daySummaryStep prefs (dayDateStep so i (dayLabelStep i da)))
        "activities" (jarr (mapWithIdx (normActEntry prefs) 0 acts))) := by
  unfold normDay
  have h3 : getVal (daySummaryStep prefs (dayDateStep so i (dayLabelStep i da)))
      "activities" = some (jarr acts) := by
    rw [getVal_daySummaryStep_other _ _ (by decide),
      getVal_dayDateStep_other _ _ _ (by decide),
      getVal_dayLabelStep_other _ _ (by decide)]
    exact ha
  dsimp only
  rw [h3]

/-- The days list of a normalized document: elementwise normDay, preserved
by the later document-level cost fixes. -/
theorem normalizeItinerary_days {prefs : TripPreferences} {it d : Dict}
    {ds : List JVal} (hds : getVal it "days" = some (jarr ds))
    (h : normalizeItinerary prefs it = some d) :
    getVal d "days" = some (jarr (mapWithIdx (normDay prefs
      ((parseIsoDate prefs.startDate).map (fun t => daysFromCivil t.1 t.2.1 t.2.2))) 0 ds)) := by
  unfold normalizeItinerary at h
  rw [hds] at h
  dsimp only at h
  split at h
  · exact absurd h (by simp)
  · rename_i it2 heq2
    have hit2 : getVal it2 "days" = some (jarr (mapWithIdx (normDay prefs
        ((parseIsoDate prefs.startDate).map (fun t => daysFromCivil t.1 t.2.1 t.2.2))) 0 ds)) := by
      split at heq2
      · obtain rfl := (Option.some.inj heq2)
        simp
      · rw [Option.map_eq_some'] at heq2
        obtain ⟨n, _, rfl⟩ := heq2
        simp
    split at h
    · obtain rfl := Option.some.inj h
      exact hit2
    · obtain rfl := Option.some.inj h
      simp [hit2]

example : balancedNesting "\x7b\"a\": \x7b\x7d\x7d" = true := by rfl

example : balancedNesting "\x7b\"a\": 1" = false := by rfl

example : balancedNesting "\x7b\x7d\x7d" = false := by rfl

theorem scanObj_cons_eq (c : Char) (rest : List Char) (d : Int) (istr esc : Bool) :
    scanObj (c :: rest) d istr esc =
      if isReturn c d istr esc = true then some 1
      else (scanObj rest (stepState c d istr esc).1 (stepState c d istr esc).2.1
        (stepState c d istr esc).2.2).map (· + 1) := by
  simp only [scanObj, isReturn, stepState]
  cases hq : c == '"' <;> cases hb : c == '\\' <;> cases ho : c == '\x7b' <;>
    cases hc : c == '\x7d' <;> cases istr <;> cases esc <;>
    cases hd : d - 1 == 0 <;> simp [hq, hb, ho, hc, hd]
  all_goals
    (exfalso
     have h1 := eq_of_beq ho
     have h2 := eq_of_beq hc
     rw [h1] at h2
     exact absurd h2 (by decide))

theorem depthRun_cons_eq (c : Char) (rest : List Char) (d : Int) (istr esc : Bool) :
    depthRun (c :: rest) d istr esc =
      depthRun rest (stepState c d istr esc).1 (stepState c d istr esc).2.1
        (stepState c d istr esc).2.2 := by
  simp only [depthRun, stepState]
  cases hq : c == '"' <;> cases hb : c == '\\' <;> cases ho : c == '\x7b' <;>
    cases hc : c == '\x7d' <;> cases istr <;> cases esc <;> simp [hq, hb, ho, hc]
  all_goals
    (exfalso
     have h1 := eq_of_beq ho
     have h2 := eq_of_beq hc
     rw [h1] at h2
     exact absurd h2 (by decide))

theorem stepState_fst (c : Char) (d : Int) (istr esc : Bool) :
    (stepState c d istr esc).1 =
      (if (!(if c == '"' && !esc then !istr else istr)) && c == '\x7b' then d + 1
       else if (!(if c == '"' && !esc then !istr else istr)) && c == '\x7d' then d - 1
       else d) := by
  simp only [stepState]
  cases hq : c == '"' <;> cases hb : c == '\\' <;> cases ho : c == '\x7b' <;>
    cases hc : c == '\x7d' <;> cases istr <;> cases esc <;> simp [hq, hb, ho, hc]
  all_goals
    (exfalso
     have h1 := eq_of_beq ho
     have h2 := eq_of_beq hc
     rw [h1] at h2
     exact absurd h2 (by decide))

theorem stepState_istr (c : Char) (d : Int) (istr esc : Bool) :
    (stepState c d istr esc).2.1 = (if c == '"' && !esc then !istr else istr) := by
  simp only [stepState]
  cases hq : c == '"' <;> cases hb : c == '\\' <;> cases ho : c == '\x7b' <;>
    cases hc : c == '\x7d' <;> cases istr <;> cases esc <;> simp [hq, hb, ho, hc]

theorem stepState_esc (c : Char) (d : Int) (istr esc : Bool) :
    (stepState c d istr esc).2.2 =
      ((if c == '"' && !esc then !istr else istr) && c == '\\' && !esc) := by
  simp only [stepState]
  cases hq : c == '"' <;> cases hb : c == '\\' <;> cases ho : c == '\x7b' <;>
    cases hc : c == '\x7d' <;> cases istr <;> cases esc <;> simp [hq, hb, ho, hc]

theorem matchedAfter_cons_eq (c : Char) (rest : List Char) (d : Int) (istr esc : Bool) :
    matchedAfter (c :: rest) d istr esc =
      (match rest with
        | [] => (stepState c d istr esc).1 == 0
        | _ :: _ => decide (1 ≤ (stepState c d istr esc).1) &&
            matchedAfter rest (stepState c d istr esc).1 (stepState c d istr esc).2.1
              (stepState c d istr esc).2.2) := by
  cases rest with
  | nil =>
      simp only [matchedAfter, stepState]
      cases hq : c == '"' <;> cases hb : c == '\\' <;> cases ho : c == '\x7b' <;>
        cases hc : c == '\x7d' <;> cases istr <;> cases esc <;> simp [hq, hb, ho, hc]
      all_goals
        (exfalso
         have h1 := eq_of_beq ho
         have h2 := eq_of_beq hc
         rw [h1] at h2
         exact absurd h2 (by decide))
  | cons r rs =>
      rw [matchedAfter.eq_3]
      dsimp only
      rw [stepState_fst, stepState_istr, stepState_esc]

theorem isReturn_step_zero {c : Char} {d : Int} {istr esc : Bool}
    (h : isReturn c d istr esc = true) : (stepState c d istr esc).1 = 0 := by
  simp only [isReturn, Bool.and_eq_true, Bool.not_eq_true'] at h
  obtain ⟨⟨⟨h1, h2⟩, h3⟩, h4⟩ := h
  have hc : c = '\x7d' := eq_of_beq h3
  have hd0 : d - 1 = 0 := by
    have h5 := eq_of_beq h4
    omega
  have hI : (if (c == '"' && !esc) = true then !istr else istr) = false := by
    simp only [Bool.and_eq_true, Bool.not_eq_true']
    exact h2
  simp only [stepState]
  rw [if_neg, if_neg, if_neg, if_pos h3, hd0]
  · intro hb
    rw [hc] at hb
    exact absurd (eq_of_beq hb) (by decide)
  · rw [hI]
    exact Bool.false_ne_true
  · rw [hI]
    simp

theorem step_pos {c : Char} {d : Int} {istr esc : Bool}
    (h : isReturn c d istr esc = false) (hd : 1 ≤ d) :
    1 ≤ (stepState c d istr esc).1 := by
  simp only [isReturn] at h
  simp only [stepState]
  by_cases h1 : ((if c == '"' && !esc then !istr else istr) && (c == '\\') && !esc) = true
  · rw [if_pos h1]
    exact hd
  · rw [if_neg h1]
    by_cases h2 : (if c == '"' && !esc then !istr else istr) = true
    · rw [if_pos h2]
      exact hd
    · rw [if_neg h2]
      by_cases h3 : (c == '\x7b') = true
      · rw [if_pos h3]
        omega
      · rw [if_neg h3]
        by_cases h4 : (c == '\x7d') = true
        · rw [if_pos h4]
          have h2f : (if c == '"' && !esc then !istr else istr) = false :=
            Bool.eq_false_iff.mpr h2
          have h1f : ((if c == '"' && !esc then !istr else istr) && (c == '\\') && !esc) = false :=
            Bool.eq_false_iff.mpr h1
          simp only [h2f, h1f, h4, Bool.not_false, Bool.true_and] at h
          have h5 : d - 1 ≠ 0 := by
            intro he
            rw [he] at h
            simp at h
          omega
        · rw [if_neg h4]
          exact hd

/-- The scan ignores whatever follows the matched span. -/
theorem scanObj_append (q : List Char) :
    ∀ (cs : List Char) (d : Int) (istr esc : Bool) (n : Nat),
    scanObj cs d istr esc = some n → scanObj (cs ++ q) d istr esc = some n := by
  intro cs
  induction cs with
  | nil => intro d istr esc n h; simp [scanObj] at h
  | cons c rest ih =>
      intro d istr esc n h
      rw [List.cons_append, scanObj_cons_eq]
      rw [scanObj_cons_eq] at h
      split at h
      · rename_i hret
        rw [if_pos hret]
        exact h
      · rename_i hret
        rw [if_neg hret]
        obtain ⟨n2, hn2, rfl⟩ := Option.map_eq_some'.mp h
        rw [ih _ _ _ _ hn2]
        rfl

/-- The scan only looks at the characters it consumes. -/
theorem scanObj_take :
    ∀ (cs : List Char) (d : Int) (istr esc : Bool) (n : Nat),
    scanObj cs d istr esc = some n → scanObj (cs.take n) d istr esc = some n := by
  intro cs
  induction cs with
  | nil => intro d istr esc n h; simp [scanObj] at h
  | cons c rest ih =>
      intro d istr esc n h
      rw [scanObj_cons_eq] at h
      split at h
      · rename_i hret
        obtain rfl : 1 = n := Option.some.inj h
        rw [List.take_succ_cons, List.take_zero, scanObj_cons_eq, if_pos hret]
      · rename_i hret
        obtain ⟨n2, hn2, rfl⟩ := Option.map_eq_some'.mp h
        rw [List.take_succ_cons, scanObj_cons_eq, if_neg hret, ih _ _ _ _ hn2]
        rfl

/-- A successful scan consumes between 1 and all characters, its consumed
span has final depth zero, and from a positive starting depth the depth
stays positive strictly inside the span. -/
theorem scanObj_some_depth :
    ∀ (cs : List Char) (d : Int) (istr esc : Bool) (n : Nat),
    scanObj cs d istr esc = some n →
    1 ≤ n ∧ n ≤ cs.length ∧ depthRun (cs.take n) d istr esc = 0 ∧
      (1 ≤ d → ∀ k, k < n → 1 ≤ depthRun (cs.take k) d istr esc) := by
  intro cs
  induction cs with
  | nil => intro d istr esc n h; simp [scanObj] at h
  | cons c rest ih =>
      intro d istr esc n h
      rw [scanObj_cons_eq] at h
      split at h
      · rename_i hret
        obtain rfl : 1 = n := Option.some.inj h
        refine ⟨le_refl 1, by simp, ?_, ?_⟩
        · rw [List.take_succ_cons, List.take_zero, depthRun_cons_eq]
          simpa [depthRun] using isReturn_step_zero hret
        · intro hd k hk
          have : k = 0 := by omega
          subst this
          simpa [depthRun] using hd
      · rename_i hret
        obtain ⟨n2, hn2, rfl⟩ := Option.map_eq_some'.mp h
        obtain ⟨h1, h2, h3, h4⟩ := ih _ _ _ _ hn2
        refine ⟨by omega, by simp; omega, ?_, ?_⟩
        · rw [List.take_succ_cons, depthRun_cons_eq]
          exact h3
        · intro hd k hk
          cases k with
          | zero => simpa [depthRun] using hd
          | succ k2 =>
              rw [List.take_succ_cons, depthRun_cons_eq]
              exact h4 (step_pos (Bool.eq_false_iff.mpr hret) hd) k2 (by omega)

/-- A scan that consumes the whole list from a positive depth certifies
matched nesting. -/
theorem scanObj_full_matched :
    ∀ (cs : List Char) (d : Int) (istr esc : Bool), 1 ≤ d →
    scanObj cs d istr esc = some cs.length → matchedAfter cs d istr esc = true := by
  intro cs
  induction cs with
  | nil => intro d istr esc _ h; simp [scanObj] at h
  | cons c rest ih =>
      intro d istr esc hd h
      rw [scanObj_cons_eq] at h
      rw [matchedAfter_cons_eq]
      split at h
      · rename_i hret
        have hlen : rest.length = 0 := by
          have := Option.some.inj h
          simpa using this.symm
        obtain rfl : rest = [] := List.length_eq_zero.mp hlen
        simpa using isReturn_step_zero hret
      · rename_i hret
        obtain ⟨n2, hn2, hn⟩ := Option.map_eq_some'.mp h
        have hn2len : n2 = rest.length := by
          simp at hn
          omega
        subst hn2len
        cases rest with
        | nil => simp [scanObj] at hn2
        | cons r rs =>
            have hpos := step_pos (Bool.eq_false_iff.mpr hret) hd
            dsimp only
            rw [ih _ _ _ hpos hn2]
            simpa using hpos

theorem findIdx?_append_found {f : Char → Bool} :
    ∀ (p : List Char) (c : Char) (rest : List Char) (i : Nat),
    (∀ a ∈ p, f a = false) → f c = true →
    List.findIdx? f (p ++ c :: rest) i = some (i + p.length) := by
  intro p
  induction p with
  | nil => intro c rest i _ hc; simp [List.findIdx?, hc]
  | cons a as ih =>
      intro c rest i hall hc
      have ha : f a = false := hall a (by simp)
      rw [List.cons_append]
      show List.findIdx? f (a :: (as ++ c :: rest)) i = _
      unfold List.findIdx?
      rw [if_neg (by simp [ha])]
      rw [ih c rest (i + 1) (fun b hb => hall b (by simp [hb])) hc]
      congr 1
      simp
      omega

theorem findIdx?_none_of_all {f : Char → Bool} :
    ∀ (l : List Char) (i : Nat), (∀ a ∈ l, f a = false) →
    List.findIdx? f l i = none := by
  intro l
  induction l with
  | nil => intro i _; rfl
  | cons a as ih =>
      intro i hall
      unfold List.findIdx?
      rw [if_neg (by simp [hall a (by simp)])]
      exact ih (i + 1) (fun b hb => hall b (by simp [hb]))

theorem findIdx?_found {f : Char → Bool} :
    ∀ (l : List Char) (i j : Nat), List.findIdx? f l i = some j →
    i ≤ j ∧ ∃ c rest, l.drop (j - i) = c :: rest ∧ f c = true := by
  intro l
  induction l with
  | nil => intro i j h; simp [List.findIdx?] at h
  | cons a as ih =>
      intro i j h
      unfold List.findIdx? at h
      split at h
      · rename_i ha
        obtain rfl : i = j := Option.some.inj h
        exact ⟨le_refl i, a, as, by simp, ha⟩
      · rename_i ha
        obtain ⟨hij, c, rest, hdrop, hc⟩ := ih (i + 1) j h
        refine ⟨by omega, c, rest, ?_, hc⟩
        have hji : j - i = (j - (i + 1)) + 1 := by omega
        rw [hji]
        simpa using hdrop

theorem stringMk_data (s : String) : String.mk s.data = s := by
  cases s
  rfl

theorem isReturn_lbrace (d : Int) (istr esc : Bool) (histr : istr = false) :
    isReturn '\x7b' d istr esc = false := by
  subst histr
  simp only [isReturn]
  simp [show ('\x7b' == '\x7d') = false from rfl]

theorem stepState_lbrace (d : Int) :
    stepState '\x7b' d false false = (d + 1, false, false) := by
  simp only [stepState]
  simp [show ('\x7b' == '"') = false from rfl, show ('\x7b' == '\\') = false from rfl,
    show ('\x7b' == '\x7b') = true from rfl]

/-- On no-brace text the extractor reports the missing-object error. -/
theorem extract_no_brace (raw : String) (hne : raw ≠ "")
    (hall : ∀ c ∈ stripFences (pstripL raw.data), (c == '\x7b') = false) :
    extract_json_object raw = Except.error "No JSON object found in response" := by
  unfold extract_json_object
  rw [if_neg hne]
  dsimp only
  rw [findIdx?_none_of_all _ 0 hall]

/-- When every nonempty prefix of the scanned suffix keeps a nonzero running
depth, the extractor reports the incomplete-object error. -/
theorem extract_depth_stuck (raw : String) (hne : raw ≠ "") (start : Nat)
    (hf : List.findIdx? (fun c => c == '\x7b') (stripFences (pstripL raw.data)) = some start)
    (hdep : ∀ k, 1 ≤ k →
      depthRun (((stripFences (pstripL raw.data)).drop start).take k) 0 false false ≠ 0) :
    extract_json_object raw = Except.error "Incomplete JSON object in response" := by
  unfold extract_json_object
  rw [if_neg hne]
  dsimp only
  rw [hf]
  dsimp only
  cases hs : scanObj ((stripFences (pstripL raw.data)).drop start) 0 false false with
  | none => rfl
  | some n =>
      exfalso
      obtain ⟨h1, _, h3, _⟩ := scanObj_some_depth _ 0 false false n hs
      exact hdep n h1 h3

/-- Whatever string the extractor returns has matched brace nesting. -/
theorem extract_ok_balanced (raw : String) (s : String)
    (h : extract_json_object raw = Except.ok s) : balancedNesting s = true := by
  unfold extract_json_object at h
  split at h
  · exact Except.noConfusion h
  · dsimp only at h
    cases hf : List.findIdx? (fun c => c == '\x7b') (stripFences (pstripL raw.data)) with
    | none => rw [hf] at h; exact Except.noConfusion h
    | some start =>
        rw [hf] at h
        dsimp only at h
        cases hs : scanObj ((stripFences (pstripL raw.data)).drop start) 0 false false with
        | none => rw [hs] at h; exact Except.noConfusion h
        | some n =>
            rw [hs] at h
            obtain rfl : (⟨((stripFences (pstripL raw.data)).drop start).take n⟩ : String) = s := by
              injection h
            obtain ⟨hstart, c, rest, hdrop, hc⟩ := findIdx?_found _ 0 start hf
            simp only [Nat.sub_zero] at hdrop
            obtain rfl : c = '\x7b' := eq_of_beq hc
            rw [hdrop] at hs
            rw [scanObj_cons_eq, if_neg, stepState_lbrace] at hs
            · dsimp only at hs
              rw [zero_add] at hs
              obtain ⟨n2, hn2, rfl⟩ := Option.map_eq_some'.mp hs
              obtain ⟨hn21, hn22, _, _⟩ := scanObj_some_depth _ _ _ _ _ hn2
              have htake := scanObj_take _ _ _ _ _ hn2
              have hlen : (rest.take n2).length = n2 := by
                simp
                omega
              have hmat := scanObj_full_matched (rest.take n2) 1 false false (by omega)
                (by rw [hlen]; exact htake)
              rw [hdrop]
              show matchedAfter (('\x7b' :: rest).take (n2 + 1)) 0 false false = true
              rw [List.take_succ_cons]
              rw [matchedAfter_cons_eq]
              cases ht : rest.take n2 with
              | nil =>
                  exfalso
                  rw [ht] at hlen
                  simp at hlen
                  omega
              | cons a as =>
                  dsimp only
                  rw [stepState_lbrace, zero_add]
                  rw [← ht, hmat]
                  rfl
            · rw [isReturn_lbrace 0 false false rfl]
              exact Bool.false_ne_true

/-- C6: on nonempty input whose stripped text has no opening brace, or whose
scanned suffix keeps a nonzero running depth on every nonempty prefix (depth
never returns to zero), extract_json_object fails with the corresponding
extraction error; and every string it does return has matched brace nesting. -/
theorem C6_unbalanced_fails_and_success_balanced (raw : String) :
    (raw ≠ "" → (∀ c ∈ stripFences (pstripL raw.data), (c == '\x7b') = false) →
      extract_json_object raw = Except.error "No JSON object found in response") ∧
    (raw ≠ "" → ∀ start : Nat,
      List.findIdx? (fun c => c == '\x7b') (stripFences (pstripL raw.data)) = some start →
      (∀ k, 1 ≤ k →
        depthRun (((stripFences (pstripL raw.data)).drop start).take k) 0 false false ≠ 0) →
      extract_json_object raw = Except.error "Incomplete JSON object in response") ∧
    (∀ s : String, extract_json_object raw = Except.ok s → balancedNesting s = true) :=
  ⟨extract_no_brace raw,
   fun hne start hf hdep => extract_depth_stuck raw hne start hf hdep,
   extract_ok_balanced raw⟩

theorem C6_unbalanced_fails_and_success_balanced_witness :
    extract_json_object "no braces here" = Except.error "No JSON object found in response" ∧
    extract_json_object "x \x7b y \x7b\x7d" = Except.error "Incomplete JSON object in response" ∧
    balancedNesting "\x7b\"a\": 1\x7d" = true :=
  ⟨(C6_unbalanced_fails_and_success_balanced "no braces here").1 (by decide) (by decide),
   (C6_unbalanced_fails_and_success_balanced "x \x7b y \x7b\x7d").2.1 (by decide) 2 (by rfl)
     (by
       intro k hk
       match k with
       | 0 => omega
       | 1 => decide
       | 2 => decide
       | 3 => decide
       | 4 => decide
       | 5 => decide
       | (m+6) =>
           have hlen : ((stripFences (pstripL ("x \x7b y \x7b\x7d").data)).drop 2).length = 6 := by
             decide
           rw [List.take_of_length_le (by rw [hlen]; omega)]
           decide),
   (C6_unbalanced_fails_and_success_balanced "\x7b\"a\": 1\x7d").2.2 "\x7b\"a\": 1\x7d" (by rfl)⟩

/-- C5 counterexample: a well-formed JSON object preceded by prefix noise that
itself contains an opening brace is not recovered; the scan starts at the
noise brace and fails, even though the embedded object is scanner-accepted and
has matched nesting. -/
theorem C5_counterexample :
    extract_json_object "\x7b oops \x7b\"a\": 1\x7d" =
      Except.error "Incomplete JSON object in response" ∧
    scanObj ("\x7b\"a\": 1\x7d").data 0 false false = some 8 ∧
    balancedNesting "\x7b\"a\": 1\x7d" = true :=
  ⟨by rfl, by rfl, by rfl⟩

/-- C5 (amended): when, after whitespace stripping and fence removal, the text
splits as prefix noise with no opening brace, then a brace-led span that the
scanner accepts in full, then arbitrary suffix noise, the extractor returns
exactly that span. -/
theorem C5_extracts_embedded_object (raw : String) (p s q : List Char)
    (hne : raw ≠ "")
    (htext : stripFences (pstripL raw.data) = p ++ s ++ q)
    (hp : ∀ c ∈ p, (c == '\x7b') = false)
    (hhead : ∃ rest, s = '\x7b' :: rest)
    (hscan : scanObj s 0 false false = some s.length) :
    extract_json_object raw = Except.ok (String.mk s) := by
  obtain ⟨rest, rfl⟩ := hhead
  unfold extract_json_object
  rw [if_neg hne]
  dsimp only
  rw [htext]
  have hfind : List.findIdx? (fun c => c == '\x7b') (p ++ ('\x7b' :: rest) ++ q) =
      some p.length := by
    have h := findIdx?_append_found p '\x7b' (rest ++ q) 0 hp (by decide)
    rw [zero_add] at h
    rw [List.append_assoc, List.cons_append]
    exact h
  rw [hfind]
  dsimp only
  have hdrop : (p ++ ('\x7b' :: rest) ++ q).drop p.length = ('\x7b' :: rest) ++ q := by
    rw [List.append_assoc]
    exact List.drop_left p _
  rw [hdrop]
  rw [scanObj_append q _ 0 false false _ hscan]
  dsimp only
  rw [List.take_left]

theorem C5_extracts_embedded_object_witness :
    extract_json_object "noise \x7b\"a\": 1\x7d tail" = Except.ok "\x7b\"a\": 1\x7d" := by
  exact C5_extracts_embedded_object "noise \x7b\"a\": 1\x7d tail" ("noise ").data
    ("\x7b\"a\": 1\x7d").data (" tail").data (by decide) (by rfl) (by decide)
    ⟨("\"a\": 1\x7d").data, rfl⟩ (by rfl)

/-! ### C7: idempotence of the Normalizer -/

/-- The synthesized slot time is already stripped and nonempty. -/
theorem slotTime_stripped (j : Nat) :
    pstripL (slotTime j).data = (slotTime j).data ∧ (slotTime j).data ≠ [] := by
  unfold slotTime
  by_cases hj : j ≤ 6
  · interval_cases j <;> exact ⟨rfl, by decide⟩
  · have h22 : min (9 + 2 * j) 22 = 22 := by omega
    rw [h22]
    exact ⟨rfl, by decide⟩

theorem actTitle_fixed (j : Nat) {a : Dict}
    (h : strBlank (getVal a "title") = false ∨
      getVal a "title" = some (jstr ("Experience " ++ toString (j + 1)))) :
    actTitle j a = a := by
  unfold actTitle
  by_cases hb : strBlank (getVal a "title") = true
  · rw [if_pos hb]
    cases h with
    | inl h0 => rw [h0] at hb; exact absurd hb (by decide)
    | inr h0 => exact setKey_same h0
  · rw [if_neg hb]

theorem actTitle_post (j : Nat) (a : Dict) :
    strBlank (getVal (actTitle j a) "title") = false ∨
      getVal (actTitle j a) "title" = some (jstr ("Experience " ++ toString (j + 1))) := by
  unfold actTitle
  by_cases hb : strBlank (getVal a "title") = true
  · rw [if_pos hb]
    right
    simp
  · rw [if_neg hb]
    left
    exact Bool.eq_false_iff.mpr hb

theorem actDescription_fixed {a : Dict}
    (h : strBlank (getVal a "description") = false ∨
      getVal a "description" = some (jstr "Curated moment designed for this trip.")) :
    actDescription a = a := by
  unfold actDescription
  by_cases hb : strBlank (getVal a "description") = true
  · rw [if_pos hb]
    cases h with
    | inl h0 => rw [h0] at hb; exact absurd hb (by decide)
    | inr h0 => exact setKey_same h0
  · rw [if_neg hb]

theorem actDescription_post (a : Dict) :
    strBlank (getVal (actDescription a) "description") = false ∨
      getVal (actDescription a) "description" =
        some (jstr "Curated moment designed for this trip.") := by
  unfold actDescription
  by_cases hb : strBlank (getVal a "description") = true
  · rw [if_pos hb]
    right
    simp
  · rw [if_neg hb]
    left
    exact Bool.eq_false_iff.mpr hb

theorem actLocation_fixed (prefs : TripPreferences) {a : Dict}
    (h : strBlank (getVal a "location") = false ∨
      getVal a "location" = some (jstr prefs.destination)) :
    actLocation prefs a = a := by
  unfold actLocation
  by_cases hb : strBlank (getVal a "location") = true
  · rw [if_pos hb]
    cases h with
    | inl h0 => rw [h0] at hb; exact absurd hb (by decide)
    | inr h0 => exact setKey_same h0
  · rw [if_neg hb]

theorem actLocation_post (prefs : TripPreferences) (a : Dict) :
    strBlank (getVal (actLocation prefs a) "location") = false ∨
      getVal (actLocation prefs a) "location" = some (jstr prefs.destination) := by
  unfold actLocation
  by_cases hb : strBlank (getVal a "location") = true
  · rw [if_pos hb]
    right
    simp
  · rw [if_neg hb]
    left
    exact Bool.eq_false_iff.mpr hb

theorem pstripS_of_stripped {t : String} (h : pstripL t.data = t.data) :
    pstripS t = t := by
  unfold pstripS
  rw [h, stringMk_data]

theorem actTime_fixed (j : Nat) {a : Dict}
    (h : ∃ t, getVal a "time" = some (jstr t) ∧ pstripL t.data = t.data ∧ t.data ≠ []) :
    actTime j a = a := by
  obtain ⟨t, ht, hstr, hne⟩ := h
  unfold actTime
  rw [ht]
  dsimp only
  rw [hstr]
  have hie : t.data.isEmpty = false := by
    cases hd : t.data with
    | nil => exact absurd hd hne
    | cons c r => rfl
  rw [hie, if_neg (by decide), pstripS_of_stripped hstr]
  exact setKey_same ht

theorem actTime_slot_prop (j : Nat) (a : Dict) :
    ∃ t, getVal (setKey a "time" (jstr (slotTime j))) "time" = some (jstr t) ∧
      pstripL t.data = t.data ∧ t.data ≠ [] :=
  ⟨slotTime j, by simp, (slotTime_stripped j).1, (slotTime_stripped j).2⟩

theorem actTime_post (j : Nat) (a : Dict) :
    ∃ t, getVal (actTime j a) "time" = some (jstr t) ∧
      pstripL t.data = t.data ∧ t.data ≠ [] := by
  unfold actTime
  cases hv : getVal a "time" with
  | none => exact actTime_slot_prop j a
  | some v =>
      cases v with
      | jstr s =>
          dsimp only
          by_cases hb : (pstripL s.data).isEmpty = true
          · rw [if_pos hb]
            exact actTime_slot_prop j a
          · rw [if_neg hb]
            refine ⟨pstripS s, by simp, ?_, ?_⟩
            · show pstripL (pstripL s.data) = pstripL s.data
              exact pstripL_idem s.data
            · show pstripL s.data ≠ []
              intro h0
              exact hb (by rw [h0]; rfl)
      | jnull => exact actTime_slot_prop j a
      | jbool b => exact actTime_slot_prop j a
      | jnum n => exact actTime_slot_prop j a
      | jarr l => exact actTime_slot_prop j a
      | jobj m => exact actTime_slot_prop j a

theorem actCost_fixed {a : Dict}
    (h : (∃ n, getVal a "cost" = some (jnum n)) ∨
      (∃ c, getVal a "cost" = some (jstr c) ∧ pstripL c.data = c.data ∧
        isDigitL c.data = false)) :
    actCost a = a := by
  unfold actCost
  cases h with
  | inl h0 =>
      obtain ⟨n, hn⟩ := h0
      rw [hn]
      exact setKey_same hn
  | inr h0 =>
      obtain ⟨c, hc, hstr, hdig⟩ := h0
      rw [hc]
      dsimp only
      rw [pstripS_of_stripped hstr]
      rw [hdig, if_neg (by decide)]
      exact setKey_same hc

theorem actCost_post (a : Dict) :
    (∃ n, getVal (actCost a) "cost" = some (jnum n)) ∨
      (∃ c, getVal (actCost a) "cost" = some (jstr c) ∧ pstripL c.data = c.data ∧
        isDigitL c.data = false) := by
  unfold actCost
  cases hv : getVal a "cost" with
  | none => right; exact ⟨"Included", by simp, by decide, by decide⟩
  | some v =>
      cases v with
      | jnum n => left; exact ⟨n, by simp⟩
      | jbool b => left; exact ⟨if b then 1 else 0, by simp⟩
      | jstr s =>
          dsimp only
          by_cases hd : isDigitL (pstripS s).data = true
          · rw [if_pos hd]
            left
            exact ⟨(natOfDigits (pstripS s).data : Int), by simp⟩
          · rw [if_neg hd]
            right
            refine ⟨pstripS s, by simp, ?_, Bool.eq_false_iff.mpr hd⟩
            show pstripL (pstripL s.data) = pstripL s.data
            exact pstripL_idem s.data
      | jnull => right; exact ⟨"Included", by simp, by decide, by decide⟩
      | jarr l => right; exact ⟨"Included", by simp, by decide, by decide⟩
      | jobj m => right; exact ⟨"Included", by simp, by decide, by decide⟩

theorem actSource_fixed {a : Dict}
    (h : ∃ t, getVal a "source" = some (jstr t) ∧ pstripL t.data = t.data ∧ t.data ≠ []) :
    actSource a = a := by
  obtain ⟨t, ht, hstr, hne⟩ := h
  unfold actSource
  rw [ht]
  dsimp only
  rw [hstr]
  have hie : t.data.isEmpty = false := by
    cases hd : t.data with
    | nil => exact absurd hd hne
    | cons c r => rfl
  rw [hie, if_neg (by decide), pstripS_of_stripped hstr]
  exact setKey_same ht

theorem actSource_ai_prop (a : Dict) :
    ∃ t, getVal (setKey a "source" (jstr "ai")) "source" = some (jstr t) ∧
      pstripL t.data = t.data ∧ t.data ≠ [] :=
  ⟨"ai", by simp, by decide, by decide⟩

theorem actSource_post (a : Dict) :
    ∃ t, getVal (actSource a) "source" = some (jstr t) ∧
      pstripL t.data = t.data ∧ t.data ≠ [] := by
  unfold actSource
  cases hv : getVal a "source" with
  | none => exact actSource_ai_prop a
  | some v =>
      cases v with
      | jstr s =>
          dsimp only
          by_cases hb : (pstripL s.data).isEmpty = true
          · rw [if_pos hb]
            exact actSource_ai_prop a
          · rw [if_neg hb]
            refine ⟨pstripS s, by simp, ?_, ?_⟩
            · show pstripL (pstripL s.data) = pstripL s.data
              exact pstripL_idem s.data
            · show pstripL s.data ≠ []
              intro h0
              exact hb (by rw [h0]; rfl)
      | jnull => exact actSource_ai_prop a
      | jbool b => exact actSource_ai_prop a
      | jnum n => exact actSource_ai_prop a
      | jarr l => exact actSource_ai_prop a
      | jobj m => exact actSource_ai_prop a

theorem actImages_fixed {a : Dict} (h : ∃ l, getVal a "images" = some (jarr l)) :
    actImages a = a := by
  obtain ⟨l, hl⟩ := h
  unfold actImages
  rw [hl]

theorem actImages_post (a : Dict) :
    ∃ l, getVal (actImages a) "images" = some (jarr l) := by
  unfold actImages
  cases hv : getVal a "images" with
  | none => exact ⟨[], by simp⟩
  | some v =>
      cases v with
      | jarr l => exact ⟨l, hv⟩
      | jnull => exact ⟨[], by simp⟩
      | jbool b => exact ⟨[], by simp⟩
      | jnum n => exact ⟨[], by simp⟩
      | jstr s => exact ⟨[], by simp⟩
      | jobj m => exact ⟨[], by simp⟩

/-- One full pass of the per-activity rules is a fixed point of a second
pass. -/
theorem normActivity_idem (prefs : TripPreferences) (j : Nat) (a : Dict) :
    normActivity prefs j (normActivity prefs j a) = normActivity prefs j a := by
  have hgT : getVal (normActivity prefs j a) "title" = getVal (actTitle j a) "title" := by
    unfold normActivity
    rw [getVal_actImages_other _ (by decide), getVal_actSource_other _ (by decide),
      getVal_actCost_other _ (by decide), getVal_actTime_other _ _ (by decide),
      getVal_actLocation_other _ _ (by decide), getVal_actDescription_other _ (by decide)]
  have hgD : getVal (normActivity prefs j a) "description" =
      getVal (actDescription (actTitle j a)) "description" := by
    unfold normActivity
    rw [getVal_actImages_other _ (by decide), getVal_actSource_other _ (by decide),
      getVal_actCost_other _ (by decide), getVal_actTime_other _ _ (by decide),
      getVal_actLocation_other _ _ (by decide)]
  have hgL : getVal (normActivity prefs j a) "location" =
      getVal (actLocation prefs (actDescription (actTitle j a))) "location" := by
    unfold normActivity
    rw [getVal_actImages_other _ (by decide), getVal_actSource_other _ (by decide),
      getVal_actCost_other _ (by decide), getVal_actTime_other _ _ (by decide)]
  have hgTi : getVal (normActivity prefs j a) "time" =
      getVal (actTime j (actLocation prefs (actDescription (actTitle j a)))) "time" := by
    unfold normActivity
    rw [getVal_actImages_other _ (by decide), getVal_actSource_other _ (by decide),
      getVal_actCost_other _ (by decide)]
  have hgC : getVal (normActivity prefs j a) "cost" =
      getVal (actCost (actTime j (actLocation prefs (actDescription (actTitle j a)))))
        "cost" := by
    unfold normActivity
    rw [getVal_actImages_other _ (by decide), getVal_actSource_other _ (by decide)]
  have hgS : getVal (normActivity prefs j a) "source" =
      getVal (actSource (actCost (actTime j (actLocation prefs (actDescription
        (actTitle j a)))))) "source" := by
    unfold normActivity
    rw [getVal_actImages_other _ (by decide)]
  have hT : actTitle j (normActivity prefs j a) = normActivity prefs j a := by
    apply actTitle_fixed j
    rw [hgT]
    exact actTitle_post j a
  have hD : actDescription (normActivity prefs j a) = normActivity prefs j a := by
    apply actDescription_fixed
    rw [hgD]
    exact actDescription_post (actTitle j a)
  have hL : actLocation prefs (normActivity prefs j a) = normActivity prefs j a := by
    apply actLocation_fixed prefs
    rw [hgL]
    exact actLocation_post prefs (actDescription (actTitle j a))
  have hTi : actTime j (normActivity prefs j a) = normActivity prefs j a := by
    apply actTime_fixed j
    rw [hgTi]
    exact actTime_post j (actLocation prefs (actDescription (actTitle j a)))
  have hC : actCost (normActivity prefs j a) = normActivity prefs j a := by
    apply actCost_fixed
    rw [hgC]
    exact actCost_post (actTime j (actLocation prefs (actDescription (actTitle j a))))
  have hS : actSource (normActivity prefs j a) = normActivity prefs j a := by
    apply actSource_fixed
    rw [hgS]
    exact actSource_post (actCost (actTime j (actLocation prefs (actDescription
      (actTitle j a)))))
  have hI : actImages (normActivity prefs j a) = normActivity prefs j a := by
    apply actImages_fixed
    show ∃ l, getVal (actImages (actSource (actCost (actTime j (actLocation prefs
      (actDescription (actTitle j a))))))) "images" = some (jarr l)
    exact actImages_post (actSource (actCost (actTime j (actLocation prefs
      (actDescription (actTitle j a))))))
  show actImages (actSource (actCost (actTime j (actLocation prefs (actDescription
    (actTitle j (normActivity prefs j a))))))) = normActivity prefs j a
  rw [hT, hD, hL, hTi, hC, hS, hI]

/-- Activity entries are pointwise idempotent under normalization. -/
theorem normActEntry_idem (prefs : TripPreferences) (j : Nat) (e : JVal) :
    normActEntry prefs j (normActEntry prefs j e) = normActEntry prefs j e := by
  cases e with
  | jobj m =>
      show jobj (normActivity prefs j (normActivity prefs j m)) =
        jobj (normActivity prefs j m)
      rw [normActivity_idem]
  | jnull =>
      show jobj (normActivity prefs j (normActivity prefs j [])) =
        jobj (normActivity prefs j [])
      rw [normActivity_idem]
  | jbool b =>
      show jobj (normActivity prefs j (normActivity prefs j [])) =
        jobj (normActivity prefs j [])
      rw [normActivity_idem]
  | jnum n =>
      show jobj (normActivity prefs j (normActivity prefs j [])) =
        jobj (normActivity prefs j [])
      rw [normActivity_idem]
  | jstr s =>
      show jobj (normActivity prefs j (normActivity prefs j [])) =
        jobj (normActivity prefs j [])
      rw [normActivity_idem]
  | jarr l =>
      show jobj (normActivity prefs j (normActivity prefs j [])) =
        jobj (normActivity prefs j [])
      rw [normActivity_idem]

theorem dayLabelStep_fixed (i : Nat) {d : Dict}
    (h : strBlank (getVal d "dateLabel") = false ∨
      getVal d "dateLabel" = some (jstr ("Day " ++ toString (i + 1)))) :
    dayLabelStep i d = d := by
  unfold dayLabelStep
  by_cases hb : strBlank (getVal d "dateLabel") = true
  · rw [if_pos hb]
    cases h with
    | inl h0 => rw [h0] at hb; exact absurd hb (by decide)
    | inr h0 => exact setKey_same h0
  · rw [if_neg hb]

theorem dayLabelStep_post (i : Nat) (d : Dict) :
    strBlank (getVal (dayLabelStep i d) "dateLabel") = false ∨
      getVal (dayLabelStep i d) "dateLabel" = some (jstr ("Day " ++ toString (i + 1))) := by
  unfold dayLabelStep
  by_cases hb : strBlank (getVal d "dateLabel") = true
  · rw [if_pos hb]
    right
    simp
  · rw [if_neg hb]
    left
    exact Bool.eq_false_iff.mpr hb

theorem dayDateStep_fixed (so : Option Int) (i : Nat) {d : Dict}
    (h : ∀ ord, so = some ord → strBlank (getVal d "date") = false ∨
      getVal d "date" = some (jstr (isoOfOrd (ord + (i : Int))))) :
    dayDateStep so i d = d := by
  cases so with
  | none => rfl
  | some ord =>
      unfold dayDateStep
      dsimp only
      by_cases hb : strBlank (getVal d "date") = true
      · rw [if_pos hb]
        cases h ord rfl with
        | inl h0 => rw [h0] at hb; exact absurd hb (by decide)
        | inr h0 => exact setKey_same h0
      · rw [if_neg hb]

theorem dayDateStep_post (so : Option Int) (i : Nat) (d : Dict) :
    ∀ ord, so = some ord → strBlank (getVal (dayDateStep so i d) "date") = false ∨
      getVal (dayDateStep so i d) "date" = some (jstr (isoOfOrd (ord + (i : Int)))) := by
  intro ord hso
  subst hso
  unfold dayDateStep
  dsimp only
  by_cases hb : strBlank (getVal d "date") = true
  · rw [if_pos hb]
    right
    simp
  · rw [if_neg hb]
    left
    exact Bool.eq_false_iff.mpr hb

theorem daySummaryStep_fixed (prefs : TripPreferences) {d : Dict}
    (h : strBlank (getVal d "summary") = false ∨
      getVal d "summary" = some (jstr (daySummary prefs))) :
    daySummaryStep prefs d = d := by
  unfold daySummaryStep
  by_cases hb : strBlank (getVal d "summary") = true
  · rw [if_pos hb]
    cases h with
    | inl h0 => rw [h0] at hb; exact absurd hb (by decide)
    | inr h0 => exact setKey_same h0
  · rw [if_neg hb]

theorem daySummaryStep_post (prefs : TripPreferences) (d : Dict) :
    strBlank (getVal (daySummaryStep prefs d) "summary") = false ∨
      getVal (daySummaryStep prefs d) "summary" = some (jstr (daySummary prefs)) := by
  unfold daySummaryStep
  by_cases hb : strBlank (getVal d "summary") = true
  · rw [if_pos hb]
    right
    simp
  · rw [if_neg hb]
    left
    exact Bool.eq_false_iff.mpr hb

/-- A day dict whose fields already satisfy the per-day postconditions is a
fixed point of the per-day rules. -/
theorem normDay_obj_fixed (prefs : TripPreferences) (so : Option Int) (i : Nat) {d : Dict}
    (hlab : strBlank (getVal d "dateLabel") = false ∨
      getVal d "dateLabel" = some (jstr ("Day " ++ toString (i + 1))))
    (hdate : ∀ ord, so = some ord → strBlank (getVal d "date") = false ∨
      getVal d "date" = some (jstr (isoOfOrd (ord + (i : Int)))))
    (hsum : strBlank (getVal d "summary") = false ∨
      getVal d "summary" = some (jstr (daySummary prefs)))
    (hacts : ∃ l, getVal d "activities" = some (jarr l) ∧
      mapWithIdx (normActEntry prefs) 0 l = l) :
    normDay prefs so i (jobj d) = jobj d := by
  obtain ⟨l, hl, hml⟩ := hacts
  have h3 : daySummaryStep prefs (dayDateStep so i (dayLabelStep i d)) = d := by
    rw [dayLabelStep_fixed i hlab, dayDateStep_fixed so i hdate,
      daySummaryStep_fixed prefs hsum]
  unfold normDay
  dsimp only
  rw [h3, hl]
  dsimp only
  rw [hml, setKey_same hl]

/-- A normalized day satisfies the per-day postconditions. -/
theorem normDay_obj_post (prefs : TripPreferences) (so : Option Int) (i : Nat) (d0 : Dict) :
    ∃ d, normDay prefs so i (jobj d0) = jobj d ∧
      (strBlank (getVal d "dateLabel") = false ∨
        getVal d "dateLabel" = some (jstr ("Day " ++ toString (i + 1)))) ∧
      (∀ ord, so = some ord → strBlank (getVal d "date") = false ∨
        getVal d "date" = some (jstr (isoOfOrd (ord + (i : Int))))) ∧
      (strBlank (getVal d "summary") = false ∨
        getVal d "summary" = some (jstr (daySummary prefs))) ∧
      (∃ l, getVal d "activities" = some (jarr l) ∧
        mapWithIdx (normActEntry prefs) 0 l = l) := by
  have hlab : strBlank (getVal (daySummaryStep prefs (dayDateStep so i (dayLabelStep i d0)))
      "dateLabel") = false ∨
      getVal (daySummaryStep prefs (dayDateStep so i (dayLabelStep i d0))) "dateLabel" =
        some (jstr ("Day " ++ toString (i + 1))) := by
    rw [getVal_daySummaryStep_other prefs _ (by decide),
      getVal_dayDateStep_other so i _ (by decide)]
    exact dayLabelStep_post i d0
  have hdate : ∀ ord, so = some ord →
      strBlank (getVal (daySummaryStep prefs (dayDateStep so i (dayLabelStep i d0)))
        "date") = false ∨
      getVal (daySummaryStep prefs (dayDateStep so i (dayLabelStep i d0))) "date" =
        some (jstr (isoOfOrd (ord + (i : Int)))) := by
    intro ord hso
    rw [getVal_daySummaryStep_other prefs _ (by decide)]
    exact dayDateStep_post so i (dayLabelStep i d0) ord hso
  have hsum := daySummaryStep_post prefs (dayDateStep so i (dayLabelStep i d0))
  unfold normDay
  dsimp only
  cases hacts : getVal (daySummaryStep prefs (dayDateStep so i (dayLabelStep i d0)))
      "activities" with
  | some v =>
      cases v with
      | jarr acts =>
          refine ⟨_, rfl, ?_, ?_, ?_, ?_⟩
          · rw [getVal_setKey]
            rw [if_neg (by decide)]
            exact hlab
          · intro ord hso
            rw [getVal_setKey, if_neg (by decide)]
            exact hdate ord hso
          · rw [getVal_setKey, if_neg (by decide)]
            exact hsum
          · refine ⟨mapWithIdx (normActEntry prefs) 0 acts, by simp, ?_⟩
            exact mapWithIdx_idem (fun j e => normActEntry_idem prefs j e) 0 acts
      | jnull =>
          exact ⟨_, rfl, by rw [getVal_setKey, if_neg (by decide)]; exact hlab,
            fun ord hso => by rw [getVal_setKey, if_neg (by decide)]; exact hdate ord hso,
            by rw [getVal_setKey, if_neg (by decide)]; exact hsum, ⟨[], by simp, rfl⟩⟩
      | jbool b =>
          exact ⟨_, rfl, by rw [getVal_setKey, if_neg (by decide)]; exact hlab,
            fun ord hso => by rw [getVal_setKey, if_neg (by decide)]; exact hdate ord hso,
            by rw [getVal_setKey, if_neg (by decide)]; exact hsum, ⟨[], by simp, rfl⟩⟩
      | jnum n =>
          exact ⟨_, rfl, by rw [getVal_setKey, if_neg (by decide)]; exact hlab,
            fun ord hso => by rw [getVal_setKey, if_neg (by decide)]; exact hdate ord hso,
            by rw [getVal_setKey, if_neg (by decide)]; exact hsum, ⟨[], by simp, rfl⟩⟩
      | jstr s =>
          exact ⟨_, rfl, by rw [getVal_setKey, if_neg (by decide)]; exact hlab,
            fun ord hso => by rw [getVal_setKey, if_neg (by decide)]; exact hdate ord hso,
            by rw [getVal_setKey, if_neg (by decide)]; exact hsum, ⟨[], by simp, rfl⟩⟩
      | jobj m =>
          exact ⟨_, rfl, by rw [getVal_setKey, if_neg (by decide)]; exact hlab,
            fun ord hso => by rw [getVal_setKey, if_neg (by decide)]; exact hdate ord hso,
            by rw [getVal_setKey, if_neg (by decide)]; exact hsum, ⟨[], by simp, rfl⟩⟩
  | none =>
      exact ⟨_, rfl, by rw [getVal_setKey, if_neg (by decide)]; exact hlab,
        fun ord hso => by rw [getVal_setKey, if_neg (by decide)]; exact hdate ord hso,
        by rw [getVal_setKey, if_neg (by decide)]; exact hsum, ⟨[], by simp, rfl⟩⟩

/-- The per-day rules are pointwise idempotent. -/
theorem normDay_idem (prefs : TripPreferences) (so : Option Int) (i : Nat) (v : JVal) :
    normDay prefs so i (normDay prefs so i v) = normDay prefs so i v := by
  cases v with
  | jobj d0 =>
      obtain ⟨d, hd, h1, h2, h3, h4⟩ := normDay_obj_post prefs so i d0
      rw [hd]
      exact normDay_obj_fixed prefs so i h1 h2 h3 h4
  | jnull => rfl
  | jbool b => rfl
  | jnum n => rfl
  | jstr s => rfl
  | jarr l => rfl

/-- A document whose days list, total cost and cost breakdown already satisfy
the Normalizer postconditions is returned unchanged. -/
theorem normalizeItinerary_fixed (prefs : TripPreferences) {it : Dict} {ds : List JVal}
    (hds : getVal it "days" = some (jarr ds))
    (hmap : mapWithIdx (normDay prefs ((parseIsoDate prefs.startDate).map
      (fun t => daysFromCivil t.1 t.2.1 t.2.2))) 0 ds = ds)
    (hnum : isNumLike (getVal it "totalEstimatedCost") = true)
    (hcb : ∃ l, getVal it "costBreakdown" = some (jarr l)) :
    normalizeItinerary prefs it = some it := by
  obtain ⟨l, hl⟩ := hcb
  unfold normalizeItinerary
  rw [hds]
  dsimp only
  rw [hmap, setKey_same hds]
  rw [if_pos hnum]
  dsimp only
  rw [hl]

/-- Every normalized document (reached through the days-is-list path) carries
the mapped days, a numeric total cost and a list cost breakdown. -/
theorem normalizeItinerary_post (prefs : TripPreferences) {it d : Dict} {ds : List JVal}
    (hds : getVal it "days" = some (jarr ds))
    (h : normalizeItinerary prefs it = some d) :
    getVal d "days" = some (jarr (mapWithIdx (normDay prefs
      ((parseIsoDate prefs.startDate).map (fun t => daysFromCivil t.1 t.2.1 t.2.2))) 0 ds)) ∧
    isNumLike (getVal d "totalEstimatedCost") = true ∧
    (∃ l, getVal d "costBreakdown" = some (jarr l)) := by
  unfold normalizeItinerary at h
  rw [hds] at h
  dsimp only at h
  set nds := mapWithIdx (normDay prefs ((parseIsoDate prefs.startDate).map
    (fun t => daysFromCivil t.1 t.2.1 t.2.2))) 0 ds with hnds
  set it1 := setKey it "days" (jarr nds) with hit1
  have hd1 : getVal it1 "days" = some (jarr nds) := by
    rw [hit1]
    simp
  have hstep : ∃ it2, (if isNumLike (getVal it1 "totalEstimatedCost") = true then some it1
      else (extractTotalCost it1).map (fun n => setKey it1 "totalEstimatedCost" (jnum n))) =
        some it2 ∧
      getVal it2 "days" = some (jarr nds) ∧
      isNumLike (getVal it2 "totalEstimatedCost") = true := by
    by_cases hnum : isNumLike (getVal it1 "totalEstimatedCost") = true
    · exact ⟨it1, by rw [if_pos hnum], hd1, hnum⟩
    · rw [if_neg hnum]
      cases het : extractTotalCost it1 with
      | none =>
          rw [if_neg hnum, het] at h
          simp at h
      | some n =>
          refine ⟨setKey it1 "totalEstimatedCost" (jnum n), rfl, ?_, ?_⟩
          · rw [getVal_setKey, if_neg (by decide)]
            exact hd1
          · rw [getVal_setKey, if_pos rfl]
            rfl
  obtain ⟨it2, hif, hd2, hnum2⟩ := hstep
  rw [hif] at h
  dsimp only at h
  cases hcb : getVal it2 "costBreakdown" with
  | some v =>
      cases v with
      | jarr lcb =>
          rw [hcb] at h
          obtain rfl : it2 = d := Option.some.inj h
          exact ⟨hd2, hnum2, lcb, hcb⟩
      | jnull =>
          rw [hcb] at h
          obtain rfl := Option.some.inj h
          exact ⟨by rw [getVal_setKey, if_neg (by decide)]; exact hd2,
            by rw [getVal_setKey, if_neg (by decide)]; exact hnum2, [], by simp⟩
      | jbool b =>
          rw [hcb] at h
          obtain rfl := Option.some.inj h
          exact ⟨by rw [getVal_setKey, if_neg (by decide)]; exact hd2,
            by rw [getVal_setKey, if_neg (by decide)]; exact hnum2, [], by simp⟩
      | jnum n =>
          rw [hcb] at h
          obtain rfl := Option.some.inj h
          exact ⟨by rw [getVal_setKey, if_neg (by decide)]; exact hd2,
            by rw [getVal_setKey, if_neg (by decide)]; exact hnum2, [], by simp⟩
      | jstr s =>
          rw [hcb] at h
          obtain rfl := Option.some.inj h
          exact ⟨by rw [getVal_setKey, if_neg (by decide)]; exact hd2,
            by rw [getVal_setKey, if_neg (by decide)]; exact hnum2, [], by simp⟩
      | jobj m =>
          rw [hcb] at h
          obtain rfl := Option.some.inj h
          exact ⟨by rw [getVal_setKey, if_neg (by decide)]; exact hd2,
            by rw [getVal_setKey, if_neg (by decide)]; exact hnum2, [], by simp⟩
  | none =>
      rw [hcb] at h
      obtain rfl := Option.some.inj h
      exact ⟨by rw [getVal_setKey, if_neg (by decide)]; exact hd2,
        by rw [getVal_setKey, if_neg (by decide)]; exact hnum2, [], by simp⟩

/-- C7 counterexample: on a document whose days is not a list the first pass
early-returns after emptying days and skips the cost fixes, so the second
pass adds totalEstimatedCost (and costBreakdown): the document changes. -/
theorem C7_counterexample :
    normalizeItinerary tPrefs [("days", jstr "x")] = some [("days", jarr [])] ∧
    normalizeItinerary tPrefs [("days", jarr [])] =
      some [("days", jarr []), ("totalEstimatedCost", jnum 0), ("costBreakdown", jarr [])] ∧
    (getVal [("days", jarr [])] "totalEstimatedCost").isSome = false ∧
    (getVal [("days", jarr []), ("totalEstimatedCost", jnum 0), ("costBreakdown", jarr [])]
      "totalEstimatedCost").isSome = true :=
  ⟨rfl, rfl, rfl, rfl⟩

/-- C7 (amended): the Normalizer is idempotent on every document whose days
field is a list; a second pass with the same preferences returns the first
pass's output unchanged.  (When days is not a list, the early return skips
the document-level cost fixes and a second pass alters the document.) -/
theorem C7_normalize_idempotent_when_days_list (prefs : TripPreferences) (it it1 : Dict)
    (hdays : ∃ ds, getVal it "days" = some (jarr ds))
    (h1 : normalizeItinerary prefs it = some it1) :
    normalizeItinerary prefs it1 = some it1 := by
  obtain ⟨ds, hds⟩ := hdays
  obtain ⟨hdays1, hnum1, hcb1⟩ := normalizeItinerary_post prefs hds h1
  exact normalizeItinerary_fixed prefs hdays1
    (mapWithIdx_idem (fun i a => normDay_idem prefs _ i a) 0 ds) hnum1 hcb1

theorem C7_normalize_idempotent_when_days_list_witness :
    normalizeItinerary tPrefs ((normalizeItinerary tPrefs cDoc7).getD []) =
      some ((normalizeItinerary tPrefs cDoc7).getD []) :=
  C7_normalize_idempotent_when_days_list tPrefs cDoc7
    ((normalizeItinerary tPrefs cDoc7).getD [])
    ⟨[jobj [("activities", jarr [jobj [("title", jstr " Fort walk "),
        ("cost", jstr " 250 ")]]), ("dateLabel", jstr "Arrival")], jstr "odd"], rfl⟩
    (by rfl)

/-- A successful item carries its dedup key into the seen set, and the key
was not already seen. -/
theorem processEntry_ok_seen {city : String} {budget : Option Int}
    {search : String → List ImgRec} {cat : String} {cache : ImgCache}
    {seen : List (String × String)} {e : Dict} {item : FashionItem}
    {cache2 : ImgCache} {seen2 : List (String × String)}
    (h : processEntry city budget search cat cache seen (jobj e) =
      Except.ok (item, cache2, seen2)) :
    entryDedupKey e ∉ seen ∧ seen2 = seen ++ [entryDedupKey e] := by
  unfold processEntry at h
  dsimp only at h
  split at h
  · exact absurd h (by simp)
  · split at h
    · exact absurd h (by simp)
    · rename_i price hprice
      split at h
      · exact absurd h (by simp)
      · split at h
        · exact absurd h (by simp)
        · rename_i hero hhero
          split at h
          · exact absurd h (by simp)
          · rename_i hnot
            simp only [Except.ok.injEq, Prod.mk.injEq] at h
            exact ⟨hnot, h.2.2.symm⟩

theorem processEntry_nonobj_error {city : String} {budget : Option Int}
    {search : String → List ImgRec} {cat : String} {cache : ImgCache}
    {seen : List (String × String)} {e : JVal}
    (he : ∀ m, e ≠ jobj m) :
    processEntry city budget search cat cache seen e =
      Except.error ("Invalid entry in " ++ cat) := by
  cases e with
  | jobj m => exact absurd rfl (he m)
  | jnull => rfl
  | jbool b => rfl
  | jnum n => rfl
  | jstr s => rfl
  | jarr l => rfl

/-- Along a successful category pass, the dict entries have pairwise
distinct dedup keys and none of them was in the starting seen set. -/
theorem processEntries_ok_inv {city : String} {budget : Option Int}
    {search : String → List ImgRec} {cat : String} :
    ∀ (entries : List JVal) (cache : ImgCache) (seen : List (String × String))
      (items : List FashionItem) (cache2 : ImgCache),
    processEntries city budget search cat entries cache seen =
      Except.ok (items, cache2) →
    (∀ i ei, entries.get? i = some (jobj ei) → entryDedupKey ei ∉ seen) ∧
    (∀ i j ei ej, i < j → entries.get? i = some (jobj ei) →
      entries.get? j = some (jobj ej) → entryDedupKey ei ≠ entryDedupKey ej) := by
  intro entries
  induction entries with
  | nil =>
      intro cache seen items cache2 _
      refine ⟨?_, ?_⟩
      · intro i ei hi; simp at hi
      · intro i j ei ej _ hi _; simp at hi
  | cons e rest ih =>
      intro cache seen items cache2 h
      unfold processEntries at h
      cases hpe : processEntry city budget search cat cache seen e with
      | error msg => rw [hpe] at h; simp at h
      | ok triple =>
          rw [hpe] at h
          obtain ⟨item, cache3, seen3⟩ := triple
          dsimp only at h
          cases hrest : processEntries city budget search cat rest cache3 seen3 with
          | error m => rw [hrest] at h; simp at h
          | ok pr =>
              cases e with
              | jobj e0 =>
                  obtain ⟨hnotseen, hseen3⟩ := processEntry_ok_seen hpe
                  subst hseen3
                  obtain ⟨ihA, ihB⟩ := ih cache3 (seen ++ [entryDedupKey e0]) pr.1 pr.2
                    (by rw [hrest])
                  refine ⟨?_, ?_⟩
                  · intro i ei hi
                    cases i with
                    | zero =>
                        simp only [List.get?] at hi
                        obtain rfl : e0 = ei := by
                          have h2 := Option.some.inj hi
                          injection h2 with h3
                        exact hnotseen
                    | succ i2 =>
                        have hik := ihA i2 ei (by simpa using hi)
                        intro hc
                        exact hik (by simp [hc])
                  · intro i j ei ej hij hi hj
                    cases i with
                    | zero =>
                        simp only [List.get?] at hi
                        obtain rfl : e0 = ei := by
                          have h2 := Option.some.inj hi
                          injection h2 with h3
                        cases j with
                        | zero => omega
                        | succ j2 =>
                            have hjk := ihA j2 ej (by simpa using hj)
                            intro hc
                            exact hjk (by simp [hc])
                    | succ i2 =>
                        cases j with
                        | zero => omega
                        | succ j2 =>
                            exact ihB i2 j2 ei ej (by omega)
                              (by simpa using hi) (by simpa using hj)
              | jnull =>
                  rw [processEntry_nonobj_error (by intro m hm; cases hm)] at hpe
                  simp at hpe
              | jbool b =>
                  rw [processEntry_nonobj_error (by intro m hm; cases hm)] at hpe
                  simp at hpe
              | jnum n =>
                  rw [processEntry_nonobj_error (by intro m hm; cases hm)] at hpe
                  simp at hpe
              | jstr s =>
                  rw [processEntry_nonobj_error (by intro m hm; cases hm)] at hpe
                  simp at hpe
              | jarr l =>
                  rw [processEntry_nonobj_error (by intro m hm; cases hm)] at hpe
                  simp at hpe

/-- A successful whole pass means every requested category was processed
successfully from some cache state. -/
theorem processCategories_ok_entries {city : String} {budget : Option Int}
    {search : String → List ImgRec} :
    ∀ (cats : List String) (payload : Dict) (cache : ImgCache)
      (results : List (String × List FashionItem)),
    processCategories city budget search cats payload cache = Except.ok results →
    ∀ cat ∈ cats, ∃ (entries : List JVal) (cache1 : ImgCache)
      (res : List FashionItem × ImgCache),
      getVal payload cat = some (jarr entries) ∧
      processEntries city budget search cat entries cache1 [] = Except.ok res := by
  intro cats
  induction cats with
  | nil => intro payload cache results _ cat hcat; simp at hcat
  | cons c0 rest ih =>
      intro payload cache results h cat hcat
      unfold processCategories at h
      split at h
      · rename_i entries hge
        split at h
        · simp at h
        · cases hpe : processEntries city budget search c0 entries cache [] with
          | error m => rw [hpe] at h; simp at h
          | ok pr =>
              rw [hpe] at h
              dsimp only at h
              split at h
              · simp at h
              · cases hrest : processCategories city budget search rest payload pr.2 with
                | error m => rw [hrest] at h; simp at h
                | ok rres =>
                    rcases List.mem_cons.mp hcat with rfl | hmem
                    · exact ⟨entries, cache, pr, hge, hpe⟩
                    · exact ih payload pr.2 rres hrest cat hmem
      · simp at h

/-- C9: when two items of one recommendation category share the same
lower-cased title and lower-cased shopping_keywords (all other fields free to
differ), the validation pass cannot succeed - no partial category is ever
returned; and on the spec's concrete example the second duplicate item is
rejected with the duplicate error for the men category. -/
theorem C9_duplicate_key_fails_whole_validation :
    (∀ (city : String) (budget : Option Int) (search : String → List ImgRec)
      (payload : Dict) (cat : String) (es : List JVal) (i j : Nat) (ei ej : Dict),
      cat ∈ ["men", "women", "kids", "accessories"] →
      getVal payload cat = some (jarr es) →
      i ≠ j →
      es.get? i = some (jobj ei) → es.get? j = some (jobj ej) →
      entryDedupKey ei = entryDedupKey ej →
      exceptIsOk (prepare_fashion_results city budget search payload) = false) ∧
    prepare_fashion_results "Jaipur" (some 5000) sampleSearch c9payload =
      Except.error "Duplicate look detected in men" := by
  constructor
  · intro city budget search payload cat es i j ei ej hcat hes hij hi hj hkey
    cases hres : prepare_fashion_results city budget search payload with
    | error m => rfl
    | ok results =>
        exfalso
        obtain ⟨entries, cache1, res, hge, hpe⟩ :=
          processCategories_ok_entries _ payload [] results hres cat hcat
        rw [hes] at hge
        obtain rfl : es = entries := by
          have := Option.some.inj hge
          injection this
        have hinv := (processEntries_ok_inv es cache1 [] res.1 res.2
          (by rw [hpe])).2
        rcases Nat.lt_or_ge i j with hlt | hge2
        · exact hinv i j ei ej hlt hi hj hkey
        · have hlt : j < i := by omega
          exact hinv j i ej ei hlt hj hi hkey.symm
  · rfl

theorem C9_duplicate_key_fails_whole_validation_witness :
    exceptIsOk (prepare_fashion_results "Jaipur" (some 5000) sampleSearch c9payload) =
      false :=
  C9_duplicate_key_fails_whole_validation.1 "Jaipur" (some 5000) sampleSearch
    c9payload "men" [c9item1, c9item2, jnull, jnull] 0 1
    [("title", jstr "Linen Shirt"),
      ("description", jstr "Breathable linen shirt."), ("style_tags", jarr [jstr "linen"]),
      ("shopping_keywords", jstr "men linen shirt"), ("price_in_inr", jnum 2000),
      ("weather_note", jstr "Cool.")]
    [("title", jstr "Linen Shirt"),
      ("description", jstr "A different description."), ("style_tags", jarr [jstr "summer"]),
      ("shopping_keywords", jstr "men linen shirt"), ("price_in_inr", jnum 3000),
      ("weather_note", jstr "Warm.")]
    (by decide) rfl (by decide) rfl rfl rfl

/-! ### C3, C4: day counts, activity counts and time fields -/

theorem map_mapWithIdx (g : β → γ) (f : Nat → α → β) (n : Nat) (l : List α) :
    (mapWithIdx f n l).map g = mapWithIdx (fun i a => g (f i a)) n l := by
  induction l generalizing n with
  | nil => rfl
  | cons a as ih => simp [mapWithIdx, ih]

theorem mapWithIdx_congr_map {f : Nat → α → β} {g : α → β}
    (h : ∀ i a, f i a = g a) (n : Nat) (l : List α) :
    mapWithIdx f n l = l.map g := by
  induction l generalizing n with
  | nil => rfl
  | cons a as ih => simp [mapWithIdx, h, ih]

theorem actsCount_normDay (prefs : TripPreferences) (so : Option Int) (i : Nat)
    (e : JVal) : actsCount (normDay prefs so i e) = normedActsCount e := by
  cases e with
  | jobj da =>
      cases hv : getVal da "activities" with
      | some v =>
          cases v with
          | jarr acts =>
              rw [normDay_activities prefs so i da acts hv]
              simp [actsCount, normedActsCount, hv, mapWithIdx_length]
          | jnull =>
              unfold normDay
              dsimp only
              rw [show getVal (daySummaryStep prefs (dayDateStep so i (dayLabelStep i da)))
                  "activities" = some jnull by
                rw [getVal_daySummaryStep_other _ _ (by decide),
                  getVal_dayDateStep_other _ _ _ (by decide),
                  getVal_dayLabelStep_other _ _ (by decide)]; exact hv]
              simp [actsCount, normedActsCount, hv]
          | jbool b =>
              unfold normDay
              dsimp only
              rw [show getVal (daySummaryStep prefs (dayDateStep so i (dayLabelStep i da)))
                  "activities" = some (jbool b) by
                rw [getVal_daySummaryStep_other _ _ (by decide),
                  getVal_dayDateStep_other _ _ _ (by decide),
                  getVal_dayLabelStep_other _ _ (by decide)]; exact hv]
              simp [actsCount, normedActsCount, hv]
          | jnum n =>
              unfold normDay
              dsimp only
              rw [show getVal (daySummaryStep prefs (dayDateStep so i (dayLabelStep i da)))
                  "activities" = some (jnum n) by
                rw [getVal_daySummaryStep_other _ _ (by decide),
                  getVal_dayDateStep_other _ _ _ (by decide),
                  getVal_dayLabelStep_other _ _ (by decide)]; exact hv]
              simp [actsCount, normedActsCount, hv]
          | jstr s =>
              unfold normDay
              dsimp only
              rw [show getVal (daySummaryStep prefs (dayDateStep so i (dayLabelStep i da)))
                  "activities" = some (jstr s) by
                rw [getVal_daySummaryStep_other _ _ (by decide),
                  getVal_dayDateStep_other _ _ _ (by decide),
                  getVal_dayLabelStep_other _ _ (by decide)]; exact hv]
              simp [actsCount, normedActsCount, hv]
          | jobj m =>
              unfold normDay
              dsimp only
              rw [show getVal (daySummaryStep prefs (dayDateStep so i (dayLabelStep i da)))
                  "activities" = some (jobj m) by
                rw [getVal_daySummaryStep_other _ _ (by decide),
                  getVal_dayDateStep_other _ _ _ (by decide),
                  getVal_dayLabelStep_other _ _ (by decide)]; exact hv]
              simp [actsCount, normedActsCount, hv]
      | none =>
          unfold normDay
          dsimp only
          rw [show getVal (daySummaryStep prefs (dayDateStep so i (dayLabelStep i da)))
              "activities" = none by
            rw [getVal_daySummaryStep_other _ _ (by decide),
              getVal_dayDateStep_other _ _ _ (by decide),
              getVal_dayLabelStep_other _ _ (by decide)]; exact hv]
          simp [actsCount, normedActsCount, hv]
  | jnull => rfl
  | jbool b => rfl
  | jnum n => rfl
  | jstr s => rfl
  | jarr l => rfl

/-- C3 amended: normalization preserves the number of days and, for every
day whose activities is already a sequence, the number of activities (a
non-list activities field becomes the empty list; non-dict days pass
through untouched).  The requested invariant - days length equals the
inclusive trip day count and 3-4 activities per day - is stated in the model
prompt but not enforced by the Normalizer. -/
theorem C3_normalize_preserves_counts (prefs : TripPreferences) (it d : Dict)
    (ds : List JVal) (hds : getVal it "days" = some (jarr ds))
    (h : normalizeItinerary prefs it = some d) :
    docDaysLen d = ds.length ∧ docActsProfile d = ds.map normedActsCount := by
  have hdays := normalizeItinerary_days hds h
  constructor
  · unfold docDaysLen
    rw [hdays]
    dsimp only
    rw [mapWithIdx_length]
  · unfold docActsProfile
    rw [hdays]
    dsimp only
    rw [map_mapWithIdx]
    exact mapWithIdx_congr_map (fun i a => actsCount_normDay prefs _ i a) 0 ds

/-- C3 counterexample: a schema-valid candidate (destination, budget,
currency present; days a non-empty list whose single day has summary and
activities) for preferences spanning three inclusive days.  After
normalization the days list still has 1 day (not 3) and that day has 1
activity (not 3-4). -/
theorem C3_counterexample :
    days_between_inclusive tPrefs.startDate tPrefs.endDate = some 3 ∧
    (normalizeItinerary tPrefs cDoc3).map docDaysLen = some 1 ∧
    (normalizeItinerary tPrefs cDoc3).map docActsProfile = some [some 1] ∧
    (1 : Nat) ≠ 3 ∧ ¬ (3 ≤ 1 ∧ 1 ≤ 4) :=
  ⟨rfl, rfl, rfl, by decide, by decide⟩

theorem C3_normalize_preserves_counts_witness :
    docDaysLen ((normalizeItinerary tPrefs cDoc3).getD []) =
      [jobj [("summary", jstr "Beach day"),
        ("activities", jarr [jobj [("title", jstr "Beach walk")]])]].length ∧
    docActsProfile ((normalizeItinerary tPrefs cDoc3).getD []) =
      [jobj [("summary", jstr "Beach day"),
        ("activities", jarr [jobj [("title", jstr "Beach walk")]])]].map normedActsCount :=
  C3_normalize_preserves_counts tPrefs cDoc3 _ _ rfl rfl

/-- C4 amended: after normalization, every activity whose candidate time was
absent, blank or not a string carries the synthesized default 09:00+2h*j
clamped to 06:00-22:00, which is a well-formed HH:MM value; a non-blank
string time is merely trimmed and is not validated (see the
counterexample). -/
theorem C4_synthesized_times_well_formed (prefs : TripPreferences) (it d : Dict)
    (ds : List JVal) (i j : Nat) (da : Dict) (acts : List JVal) (e : JVal)
    (hds : getVal it "days" = some (jarr ds))
    (h : normalizeItinerary prefs it = some d)
    (hdi : ds.get? i = some (jobj da))
    (hacts : getVal da "activities" = some (jarr acts))
    (hej : acts.get? j = some e)
    (hblank : entryTimeBlank e = true) :
    timeAt d i j = some (jstr (slotTime j)) ∧
    wellFormedTime (slotTime j) = true := by
  refine ⟨?_, wellFormedTime_slotTime j⟩
  have hdays := normalizeItinerary_days hds h
  set so := (parseIsoDate prefs.startDate).map
    (fun t => daysFromCivil t.1 t.2.1 t.2.2) with hso
  unfold timeAt
  rw [hdays]
  dsimp only
  have hgi : (mapWithIdx (normDay prefs so) 0 ds).get? i =
      some (normDay prefs so i (jobj da)) := by
    rw [mapWithIdx_get, hdi]
    simp
  rw [hgi, normDay_activities prefs so i da acts hacts]
  dsimp only
  rw [show getVal (setKey (daySummaryStep prefs (dayDateStep so i (dayLabelStep i da)))
      "activities" (jarr (mapWithIdx (normActEntry prefs) 0 acts))) "activities" =
      some (jarr (mapWithIdx (normActEntry prefs) 0 acts)) by simp]
  have hgj : (mapWithIdx (normActEntry prefs) 0 acts).get? j =
      some (normActEntry prefs j e) := by
    rw [mapWithIdx_get, hej]
    simp
  dsimp only
  rw [hgj]
  obtain ⟨a2, ha2, htime⟩ := normActEntry_time_of_blank prefs j e (by
    cases e <;> simp [entryTimeBlank] at hblank ⊢ <;> exact hblank)
  rw [ha2]
  exact htime

/-- C4 counterexample: a model-supplied time " 25:99 " is only trimmed, not
validated: the normalized document carries time "25:99", which is not a
well-formed 24-hour value, contradicting "regardless of whether the time was
synthesized or supplied by the model". -/
theorem C4_counterexample :
    (normalizeItinerary tPrefs cDoc4).map (fun d => timeAt d 0 0) =
      some (some (jstr "25:99")) ∧
    wellFormedTime "25:99" = false :=
  ⟨rfl, rfl⟩

theorem C4_synthesized_times_well_formed_witness :
    timeAt ((normalizeItinerary tPrefs cDoc4b).getD []) 0 0 =
      some (jstr (slotTime 0)) ∧
    wellFormedTime (slotTime 0) = true :=
  C4_synthesized_times_well_formed tPrefs cDoc4b _ _ 0 0 _ _ _
    rfl rfl rfl rfl rfl rfl

/-- C1 counterexample: the model returns the empty JSON object, which parses
but lacks every required key (destination, budget, currency, days).  The
claim says such a candidate fails schema validation and becomes a retry
signal; instead the pipeline accepts it, overwrites the identity fields and
hands it to the Normalizer, returning a document - there is no local schema
validation on the itinerary path. -/
theorem C1_counterexample :
    generate_live_core c1loads c1gen tPrefs "T" =
      Except.ok [("destination", jstr "Goa, India"), ("budget", jnum 50000),
        ("currency", jstr "INR"), ("createdAt", jstr "T"), ("days", jarr [])] := by
  rfl

/-- C1 amended: a candidate that parses as a JSON object is accepted
unconditionally - no required-key or days-shape check is performed - and is
passed on to the Normalizer; only extraction and JSON-decode failures (and
empty responses) are turned into retry signals. -/
theorem C1_parsed_object_accepted_without_validation
    (loads : String → Except String JVal) (gen : Nat → String → String)
    (prefs : TripPreferences) (now : String) (dayCount : Int) (m : Dict)
    (hraw : gen 0 (system_instruction prefs dayCount) ≠ "")
    (hload : loads (gen 0 (system_instruction prefs dayCount)) = Except.ok (jobj m)) :
    run_gemini_attempts loads gen prefs now dayCount =
      (Except.ok (acceptCandidate prefs now m),
       [(0, system_instruction prefs dayCount)]) := by
  unfold run_gemini_attempts MAX_GEMINI_ATTEMPTS geminiAttempts
  simp [hraw, hload]

theorem C1_parsed_object_accepted_without_validation_witness :
    run_gemini_attempts c1loads c1gen tPrefs "T" 3 =
      (Except.ok (acceptCandidate tPrefs "T" []),
       [(0, system_instruction tPrefs 3)]) :=
  C1_parsed_object_accepted_without_validation c1loads c1gen tPrefs "T" 3 []
    (by decide) rfl

/-- C2 counterexample: attempt 1 yields an unterminated JSON object
(ExtractionError) and a second attempt would yield a loadable object, but
with MAX_GEMINI_ATTEMPTS = 1 the controller never performs it: generation
terminates with the recorded parse-failure reason after one attempt (the
trace shows the single base-instruction call), not with attempt 2's content
after two attempts as claimed. -/
theorem C2_counterexample :
    run_gemini_attempts c2loads c2gen tPrefs "T" 3 =
      (Except.error "Parse failure on attempt 1: Incomplete JSON object in response",
       [(0, system_instruction tPrefs 3)]) ∧
    c2loads (c2gen 1 (strict_instruction tPrefs 3)) =
      Except.ok (jobj [("destination", jstr "Goa")]) :=
  ⟨rfl, rfl⟩

/-- C2 amended: the attempt loop is configured with MAX_GEMINI_ATTEMPTS = 1,
so when the first attempt fails to parse (extraction error on the raw text,
json.loads failure), no second attempt is performed: generation terminates
with the recorded reason after the single attempt, which used the base
instruction; the stricter variant is selected only for attempt indices
beyond 0, which this limit never reaches. -/
theorem C2_single_attempt_failure_is_terminal
    (loads : String → Except String JVal) (gen : Nat → String → String)
    (prefs : TripPreferences) (now : String) (dayCount : Int) (msg e : String)
    (hraw : gen 0 (system_instruction prefs dayCount) ≠ "")
    (hload : loads (gen 0 (system_instruction prefs dayCount)) = Except.error msg)
    (hext : extract_json_object (gen 0 (system_instruction prefs dayCount)) =
      Except.error e) :
    run_gemini_attempts loads gen prefs now dayCount =
      (Except.error ("Parse failure on attempt 1: " ++ e),
       [(0, system_instruction prefs dayCount)]) := by
  unfold run_gemini_attempts MAX_GEMINI_ATTEMPTS geminiAttempts
  simp [hraw, hload, hext, geminiAttempts]
  rfl

theorem C2_single_attempt_failure_is_terminal_witness :
    run_gemini_attempts c2loads c2gen tPrefs "T" 3 =
      (Except.error ("Parse failure on attempt 1: " ++ "Incomplete JSON object in response"),
       [(0, system_instruction tPrefs 3)]) :=
  C2_single_attempt_failure_is_terminal c2loads c2gen tPrefs "T" 3
    "Expecting value: line 1 column 1 (char 0)" "Incomplete JSON object in response"
    (by decide) rfl rfl

/-! ### C8: the Budget Fit axis example -/

/-- C8: for any itinerary whose totalEstimatedCost is 40000 and preferences
with budget 50000, whenever the Insight Scorer completes, the Budget Fit
axis (the first axis) scores exactly 87 = min(100, int(82 + 25*0.2)), and
since the cushion 10000 exceeds 15% of the budget (7500) the reinvestment
suggestion is in suggestedActions. -/
theorem C8_budget_axis_score_and_reinvest (it : Dict) (prefs : TripPreferences)
    (rep : InsightReport)
    (htec : getVal it "totalEstimatedCost" = some (jnum 40000))
    (hbud : prefs.budget = 50000)
    (h : computeTripInsights it prefs = some rep) :
    rep.axes.head? = some ⟨"budget", "Budget Fit", 87, "great",
      "Compares projected spend against your stated budget."⟩ ∧
    "Reinvest budget buffer into a signature local experience." ∈ rep.suggestedActions := by
  have hext : extractTotalCost it = some 40000 := by
    unfold extractTotalCost; rw [htec]
  unfold computeTripInsights at h
  rw [hbud, hext] at h
  dsimp only [Bind.bind, Option.bind, Pure.pure] at h
  have htc : (if ((40000 : Int) != 0) = true then (40000 : Int)
      else if ((50000 : Int) != 0) = true then 50000 else 1) = 40000 := by decide
  rw [htc] at h
  have hbf : budgetFit 50000 (40000 : Int) =
      (87, [], ["Reinvest budget buffer into a signature local experience."]) := by decide
  rw [hbf] at h
  cases hdays : insightDays it with
  | none => rw [hdays] at h; simp at h
  | some days =>
  rw [hdays] at h
  dsimp only at h
  cases hblob : activitiesBlob days with
  | none => rw [hblob] at h; simp at h
  | some blob =>
  rw [hblob] at h
  dsimp only at h
  cases hsres : sustainabilityScore blob it 40000 with
  | none => rw [hsres] at h; simp at h
  | some sres =>
  rw [hsres] at h
  dsimp only at h
  cases heres : experienceFit blob days prefs with
  | none => rw [heres] at h; simp at h
  | some eres =>
  rw [heres] at h
  dsimp only at h
  have hrep := (Option.some.inj h).symm
  subst hrep
  constructor
  · rfl
  · show _ ∈ _ ++ _ ++ _ ++ _ ++ _
    apply List.mem_append_left
    apply List.mem_append_left
    apply List.mem_append_left
    apply List.mem_append_left
    exact List.mem_singleton_self _

theorem C8_budget_axis_score_and_reinvest_witness :
    c8rep.axes.head? = some ⟨"budget", "Budget Fit", 87, "great",
      "Compares projected spend against your stated budget."⟩ ∧
    "Reinvest budget buffer into a signature local experience." ∈ c8rep.suggestedActions :=
  C8_budget_axis_score_and_reinvest c8doc tPrefs c8rep rfl rfl rfl

theorem C10_prefs_determine_identity_fields_witness :
    getVal ((normalizeItinerary tPrefs (acceptCandidate tPrefs "T" [])).getD [])
      "destination" = some (jstr (tPrefs.destination ++ ", India")) ∧
    getVal ((normalizeItinerary tPrefs (acceptCandidate tPrefs "T" [])).getD [])
      "budget" = some (jnum tPrefs.budget) ∧
    getVal ((normalizeItinerary tPrefs (acceptCandidate tPrefs "T" [])).getD [])
      "currency" = some (jstr "INR") :=
  C10_prefs_determine_identity_fields tPrefs "T" [] _ rfl

example : computeTripInsights [("totalEstimatedCost", jnum 40000)] tPrefs =
  some ⟨81, "Launch-ready",
    [⟨"budget", "Budget Fit", 87, "great",
        "Compares projected spend against your stated budget."⟩,
      ⟨"logistics", "Logistics Flow", 82, "great",
        "Looks at activity density and travel day stretch."⟩,
      ⟨"weather", "Weather Resilience", 90, "great",
        "Reflects risk from current advisory notes."⟩,
      ⟨"impact", "Sustainability", 80, "great",
        "Balances low-carbon modes and community-first picks."⟩,
      ⟨"experience", "Experience Fit", 68, "caution",
        "Measures alignment between themes and planned highlights."⟩],
    [],
    ["Reinvest budget buffer into a signature local experience.",
      "Infuse more of the selected themes into late-day slots for balance."]⟩ := by
  rfl

example : normalizeItinerary tPrefs [("days", jarr [jobj [("activities", jarr [jobj []])]])] =
  some [("days", jarr [jobj [
    ("activities", jarr [jobj [
      ("title", jstr "Experience 1"),
      ("description", jstr "Curated moment designed for this trip."),
      ("location", jstr "Goa"),
      ("time", jstr "09:00"),
      ("cost", jstr "Included"),
      ("source", jstr "ai"),
      ("images", jarr [])]]),
    ("dateLabel", jstr "Day 1"),
    ("date", jstr "2025-01-01"),
    ("summary", jstr "Tailored highlights across Goa focusing on heritage.")]]),
   ("totalEstimatedCost", jnum 0),
   ("costBreakdown", jarr [])] := by rfl

example : normalizeItinerary tPrefs
    [("days", jarr [jobj [("activities", jarr [jobj [("time", jstr " 25:99 "), ("cost", jstr " 1200 ")]])]])] =
  some [("days", jarr [jobj [
    ("activities", jarr [jobj [
      ("time", jstr "25:99"),
      ("cost", jnum 1200),
      ("title", jstr "Experience 1"),
      ("description", jstr "Curated moment designed for this trip."),
      ("location", jstr "Goa"),
      ("source", jstr "ai"),
      ("images", jarr [])]]),
    ("dateLabel", jstr "Day 1"),
    ("date", jstr "2025-01-01"),
    ("summary", jstr "Tailored highlights across Goa focusing on heritage.")]]),
   ("totalEstimatedCost", jnum 0),
   ("costBreakdown", jarr [])] := by rfl
